import Mathlib

/-!
# Verification of the document-chat application's extraction and selection logic

A shallow embedding of the Python source `app.py` of the repository
`hello-ai-doc-upload`.  Strings are modelled as `List Char`; the Python
string operations used by the source (`split`, `strip`, `lower`, `replace`,
`startswith`, `join`, `re.findall`, f-string number formatting) are
translated into executable Lean functions below, and the application
functions (`estimate_tokens`, `create_slide_summaries`,
`get_relevant_slides`, `chat_with_ai`, `process_pptx_file`,
`extract_slide_content`, `extract_text_from_shape`,
`extract_text_frame_content`, `extract_table_content`, `get_content_type`)
are translated on top of them.
-/

set_option maxRecDepth 8000

namespace DocChat

/-- Characters treated as whitespace by Python's `str.strip()` / `\s`. -/
def isWS (c : Char) : Bool :=
  c = ' ' || c = '\t' || c = '\n' || c = '\r' || c = '\x0b' || c = '\x0c'

/-- ASCII decimal digit test, matching the regex class `\d` on ASCII input. -/
def isDigitCh (c : Char) : Bool := '0' ≤ c && c ≤ '9'

/-- Python `str.lower` on a single ASCII character. -/
def pyLowerChar (c : Char) : Char :=
  if 'A' ≤ c ∧ c ≤ 'Z' then Char.ofNat (c.toNat + 32) else c

/-- Python `str.lower` (ASCII fragment, which is all the source relies on). -/
def pyLower (s : List Char) : List Char := s.map pyLowerChar

/-- Python `str.strip()`: drop leading and trailing whitespace. -/
def pyStrip (s : List Char) : List Char :=
  ((s.dropWhile isWS).reverse.dropWhile isWS).reverse

/-- Python `sep.join(parts)`. -/
def pyJoin (sep : List Char) : List (List Char) → List Char
  | [] => []
  | [x] => x
  | x :: xs => x ++ sep ++ pyJoin sep xs

/-- Python substring test `needle in hay`. -/
def containsSub (needle hay : List Char) : Bool :=
  (List.range (hay.length + 1)).any (fun i => needle.isPrefixOf (hay.drop i))

/-- Decimal digit character for a digit value. -/
def digitChar : Nat → Char
  | 0 => '0' | 1 => '1' | 2 => '2' | 3 => '3' | 4 => '4'
  | 5 => '5' | 6 => '6' | 7 => '7' | 8 => '8' | _ => '9'

/-- Fuel-driven decimal rendering of a natural number (most significant first). -/
def natDigitsAux : Nat → Nat → List Char
  | 0, _ => []
  | fuel + 1, n => if n < 10 then [digitChar n]
                   else natDigitsAux fuel (n / 10) ++ [digitChar (n % 10)]

/-- Python f-string rendering of a natural number, e.g. `f"SLIDE N"` uses it. -/
def natRepr (n : Nat) : List Char := natDigitsAux (n + 1) n

/-- Python `s.split(sep)` (non-empty `sep`), fuel-driven so that it is
structurally recursive; one unit of fuel is spent per character examined,
so `fuel = s.length` always suffices. -/
def pySplitAux (sep : List Char) : Nat → List Char → List (List Char)
  | _, [] => [[]]
  | 0, s => [s]
  | fuel + 1, c :: l =>
    if sep.isPrefixOf (c :: l) then
      [] :: pySplitAux sep fuel ((c :: l).drop sep.length)
    else
      match pySplitAux sep fuel l with
      | [] => [[c]]
      | t :: ts => (c :: t) :: ts

/-- Python `s.split(sep)` for non-empty `sep`. -/
def pySplit (sep s : List Char) : List (List Char) := pySplitAux sep s.length s

/-- Python `s.replace(old, new)` (all non-overlapping occurrences,
left to right), fuel-driven like `pySplitAux`. -/
def pyReplaceAux (old new : List Char) : Nat → List Char → List Char
  | _, [] => []
  | 0, s => s
  | fuel + 1, c :: l =>
    if old.isPrefixOf (c :: l) then
      new ++ pyReplaceAux old new fuel ((c :: l).drop old.length)
    else
      c :: pyReplaceAux old new fuel l

/-- Python `s.replace(old, new)` for non-empty `old`. -/
def pyReplace (old new s : List Char) : List Char := pyReplaceAux old new s.length s

/-- The slide-block separator string used throughout `app.py`. -/
def marker : List Char := "=== SLIDE".data

/-- Parse the decimal digits collected by the regex group `(\d+)`,
as Python `int` does. -/
def digitsToNat (ds : List Char) : Nat :=
  ds.foldl (fun a c => 10 * a + (c.toNat - 48)) 0

/-- One attempted match of the regex `slide\s+(\d+)` anchored at the start of
`s`: on success returns the parsed group value and the remainder of the
input after the match (the regex engine resumes scanning there). -/
def matchSlideAt (s : List Char) : Option (Nat × List Char) :=
  if "slide".data.isPrefixOf s then
    let r1 := s.drop 5
    let ws := r1.takeWhile isWS
    if ws = [] then none
    else
      let r2 := r1.dropWhile isWS
      let ds := r2.takeWhile isDigitCh
      if ds = [] then none
      else some (digitsToNat ds, r2.drop ds.length)
  else none

/-- Fuel-driven scanner implementing `re.findall(r'slide\s+(\d+)', s)`:
left-to-right, non-overlapping, resuming after each match.  Every step
consumes at least one character, so `fuel = s.length` suffices. -/
def findRefsAux : Nat → List Char → List Nat
  | 0, _ => []
  | _ + 1, [] => []
  | fuel + 1, c :: l =>
    match matchSlideAt (c :: l) with
    | some (n, rest) => n :: findRefsAux fuel rest
    | none => findRefsAux fuel l

/-- `re.findall(r'slide\s+(\d+)', s)` from `get_relevant_slides`
(the source applies it to the lowercased user message). -/
def findSlideRefs (s : List Char) : List Nat := findRefsAux s.length s

/-! ## The slide-deck data model

`python-pptx` objects are duck-typed; the source probes them with
`hasattr` and truthiness tests.  Each probed attribute becomes a field:
`none` models an absent attribute (`hasattr` false), and for collections
the Python falsiness of an empty collection coincides with the `[]` case. -/

/-- A run inside a paragraph (`paragraph.runs` element, attribute `.text`). -/
structure TRun where
  text : List Char
deriving DecidableEq

/-- A paragraph of a text frame: `.text`, `.level` and `.runs`. -/
structure TPara where
  text : List Char
  level : Nat
  runs : List TRun
deriving DecidableEq

/-- A text frame: `.paragraphs` and its own aggregate `.text` attribute. -/
structure TextFrame where
  paragraphs : List TPara
  text : List Char
deriving DecidableEq

/-- A table: rows of cell texts (`row.cells[j].text`). -/
structure Table where
  rows : List (List (List Char))
deriving DecidableEq

/-- A slide shape as probed by `app.py`: optional direct `.text`, optional
`.text_frame`, the `has_text_frame` flag, optional `.table`, nested
`.shapes` of a group (empty list models both an absent attribute and an
empty — hence Python-falsy — collection), the fallback attributes
`.content` and `.value`, `placeholder_format.type` when the shape is a
placeholder, the shape `.name`, the Python class name (used only in DEBUG
lines), and the rendered `.shape_type` descriptor. -/
inductive Shape where
  | mk : (text : Option (List Char)) → (text_frame : Option TextFrame) →
         (has_text_frame : Bool) → (table : Option Table) →
         (children : List Shape) → (content : Option (List Char)) →
         (value : Option (List Char)) → (placeholder_type : Option Nat) →
         (name : Option (List Char)) → (className : List Char) →
         (shape_type : Option (List Char)) → Shape

def Shape.text : Shape → Option (List Char)
  | .mk t _ _ _ _ _ _ _ _ _ _ => t

def Shape.text_frame : Shape → Option TextFrame
  | .mk _ tf _ _ _ _ _ _ _ _ _ => tf

def Shape.has_text_frame : Shape → Bool
  | .mk _ _ htf _ _ _ _ _ _ _ _ => htf

def Shape.table : Shape → Option Table
  | .mk _ _ _ tb _ _ _ _ _ _ _ => tb

def Shape.children : Shape → List Shape
  | .mk _ _ _ _ ch _ _ _ _ _ _ => ch

def Shape.content : Shape → Option (List Char)
  | .mk _ _ _ _ _ ct _ _ _ _ _ => ct

def Shape.value : Shape → Option (List Char)
  | .mk _ _ _ _ _ _ vl _ _ _ _ => vl

def Shape.placeholder_type : Shape → Option Nat
  | .mk _ _ _ _ _ _ _ ph _ _ _ => ph

def Shape.name : Shape → Option (List Char)
  | .mk _ _ _ _ _ _ _ _ nm _ _ => nm

def Shape.className : Shape → List Char
  | .mk _ _ _ _ _ _ _ _ _ cn _ => cn

def Shape.shape_type : Shape → Option (List Char)
  | .mk _ _ _ _ _ _ _ _ _ _ st => st

/-- A slide: its `.shapes` in order, and the shapes of its `notes_slide`
when present (`none` models an absent or `None` notes slide). -/
structure Slide where
  shapes : List Shape
  notes : Option (List Shape)

/-! ## Shape Text Extractor (`extract_text_from_shape` and helpers) -/

/-- One paragraph of the first pass of `extract_text_frame_content`:
skipped when blank, bullet-rendered when `level > 0`. -/
def paraLine (p : TPara) : Option (List Char) :=
  let para_text := pyStrip p.text
  if para_text = [] then none
  else if 0 < p.level then
    some ((List.replicate p.level "  ".data).flatten ++ "• ".data ++ para_text)
  else some para_text

/-- First pass of `extract_text_frame_content`: paragraph texts in order. -/
def paraPass (tf : TextFrame) : List (List Char) :=
  tf.paragraphs.filterMap paraLine

/-- `if run_text and run_text not in frame_content: frame_content.append(run_text)`. -/
def addIfNew (acc : List (List Char)) (t : List Char) : List (List Char) :=
  if t ≠ [] ∧ t ∉ acc then acc ++ [t] else acc

/-- Second pass of `extract_text_frame_content`: run texts not already
present verbatim among the collected lines. -/
def runPass (tf : TextFrame) (acc : List (List Char)) : List (List Char) :=
  tf.paragraphs.foldl (fun a p => p.runs.foldl (fun a r => addIfNew a (pyStrip r.text)) a) acc

/-- Third pass of `extract_text_frame_content`: the frame's aggregate text
when non-empty and not already present verbatim. -/
def fullTextPass (tf : TextFrame) (acc : List (List Char)) : List (List Char) :=
  if tf.text ≠ [] then addIfNew acc (pyStrip tf.text) else acc

/-- `extract_text_frame_content(text_frame)`. -/
def extract_text_frame_content (tf : TextFrame) : List Char :=
  pyJoin "\n".data (fullTextPass tf (runPass tf (paraPass tf)))

/-- `extract_table_content(table)`. -/
def extract_table_content (tb : Table) : List Char :=
  let table_content := tb.rows.filterMap (fun row =>
    let row_content := row.filterMap (fun cell =>
      let cell_text := pyStrip cell
      if cell_text = [] then none else some cell_text)
    if row_content = [] then none else some (pyJoin " | ".data row_content))
  if table_content = [] then [] else "TABLE:\n".data ++ pyJoin "\n".data table_content

mutual
/-- The `text_content` list accumulated by `extract_text_from_shape`,
one entry per strategy that yields a (suitably) non-empty result:
1. direct `.text`, 2. text-frame content, 3. table content,
4. nested group shapes, 5. `has_text_frame` re-read of the frame text,
6. the fallback attribute loop over `text`, `content`, `value`. -/
def shape_fragments : Shape → List (List Char)
  | .mk t tf htf tb ch ct vl _ph _nm _cn _st =>
    let step1 := match t with
      | some tx => if tx ≠ [] ∧ pyStrip tx ≠ [] then [pyStrip tx] else []
      | none => []
    let step2 := match tf with
      | some frame =>
        let frame_text := extract_text_frame_content frame
        if frame_text ≠ [] ∧ pyStrip frame_text ≠ [] then [pyStrip frame_text] else []
      | none => []
    let step3 := match tb with
      | some table =>
        let table_text := extract_table_content table
        if table_text ≠ [] ∧ pyStrip table_text ≠ [] then [pyStrip table_text] else []
      | none => []
    let step4 := match ch with
      | [] => []
      | c0 :: crest =>
        let group_text := pyJoin " ".data (shapes_parts (c0 :: crest))
        if group_text ≠ [] ∧ pyStrip group_text ≠ [] then [pyStrip group_text] else []
    let step5 :=
      if htf then
        match tf with
        | some frame => if frame.text ≠ [] then [pyStrip frame.text] else []
        | none => []
      else []
    let step6 :=
      (match t with
       | some tx => if tx ≠ [] ∧ pyStrip tx ≠ [] then [pyStrip tx] else []
       | none => []) ++
      (match ct with
       | some cx => if cx ≠ [] ∧ pyStrip cx ≠ [] then [pyStrip cx] else []
       | none => []) ++
      (match vl with
       | some vx => if vx ≠ [] ∧ pyStrip vx ≠ [] then [pyStrip vx] else []
       | none => [])
    step1 ++ step2 ++ step3 ++ step4 ++ step5 ++ step6

/-- The `text_parts` list of `extract_text_from_shapes`. -/
def shapes_parts : List Shape → List (List Char)
  | [] => []
  | s :: rest =>
    let shape_text := pyStrip (pyJoin " ".data (shape_fragments s))
    (if pyStrip shape_text ≠ [] then [pyStrip shape_text] else []) ++ shapes_parts rest
end

/-- `extract_text_from_shape(shape)`: space-join of the strategies' results;
the source returns `result.strip()` when non-blank and `""` otherwise,
which is `pyStrip result` in both cases. -/
def extract_text_from_shape (sh : Shape) : List Char :=
  pyStrip (pyJoin " ".data (shape_fragments sh))

/-- `extract_text_from_shapes(shapes)`. -/
def extract_text_from_shapes (shapes : List Shape) : List Char :=
  pyJoin " ".data (shapes_parts shapes)

/-! ## Slide Extractor (`get_content_type`, `extract_slide_content`) -/

/-- The table / text-frame tail of `get_content_type`'s decision chain. -/
def content_type_shape_check (sh : Shape) : Option (List Char) :=
  if sh.table.isSome then some "TABLE".data
  else if sh.text_frame.isSome ∧ sh.table.isNone then some "TEXT".data
  else none

/-- `get_content_type(shape)`. -/
def get_content_type (sh : Shape) : Option (List Char) :=
  if sh.placeholder_type = some 1 then some "TITLE".data
  else if sh.placeholder_type = some 2 then some "CONTENT".data
  else
    match sh.name with
    | some nm =>
      let name_lower := pyLower nm
      if containsSub "title".data name_lower then some "TITLE".data
      else if containsSub "content".data name_lower ∨ containsSub "body".data name_lower then
        some "CONTENT".data
      else content_type_shape_check sh
    | none => content_type_shape_check sh

/-- The `shape_info` debugging string built for each shape. -/
def shapeInfo (count : Nat) (sh : Shape) : List Char :=
  "Shape ".data ++ natRepr count ++ ": ".data ++ sh.className
  ++ (match sh.name with
      | some nm => " (name: ".data ++ nm ++ ")".data
      | none => [])
  ++ (match sh.shape_type with
      | some st => " (type: ".data ++ st ++ ")".data
      | none => [])

/-- The `shape_content` lines of `extract_slide_content`: one line per shape,
either the (possibly type-prefixed) extracted text or a DEBUG placeholder. -/
def shapeLinesAux : Nat → List Shape → List (List Char)
  | _, [] => []
  | count, sh :: rest =>
    let shape_text := extract_text_from_shape sh
    (if pyStrip shape_text ≠ [] then
       match get_content_type sh with
       | some ctype => ctype ++ ": ".data ++ pyStrip shape_text
       | none => pyStrip shape_text
     else "DEBUG: ".data ++ shapeInfo count sh ++ " - No text extracted".data)
    :: shapeLinesAux (count + 1) rest

/-- `extract_slide_content(slide, slide_number)`. -/
def extract_slide_content (slide : Slide) (slide_number : Nat) : Option (List Char) :=
  let header := "=== SLIDE ".data ++ natRepr slide_number ++ " ===".data
  let notesLines := match slide.notes with
    | some nshapes =>
      let notes_text := extract_text_from_shapes nshapes
      if pyStrip notes_text ≠ [] then ["NOTES: ".data ++ pyStrip notes_text] else []
    | none => []
  let shape_content := shapeLinesAux 1 slide.shapes
  let slide_content := header :: (notesLines ++ shape_content)
  if 1 < slide_content.length then some (pyJoin "\n".data slide_content) else none

/-! ## Document Extractor (`process_pptx_file`) -/

/-- The loop `for i, slide in enumerate(presentation.slides, 1)` collecting
the non-`None` results of `extract_slide_content`. -/
def extractAll : Nat → List Slide → List (List Char)
  | _, [] => []
  | i, sl :: rest =>
    match extract_slide_content sl i with
    | some c => c :: extractAll (i + 1) rest
    | none => extractAll (i + 1) rest

/-- The presentation metadata block prepended by `process_pptx_file`. -/
def metaBlock (total extractedCount : Nat) : List Char :=
  "PRESENTATION OVERVIEW:\nTotal Slides: ".data ++ natRepr total
  ++ "\nContent Extracted: ".data ++ natRepr extractedCount ++ " slides\n\n".data

/-- `process_pptx_file(file_content)` after the deck has been parsed into
its slides: the temporary-file plumbing and the parser are outside the
embedding, the extraction logic is translated verbatim. -/
def process_pptx_file (slides : List Slide) : List Char :=
  let extracted_content := extractAll 1 slides
  if extracted_content = [] then "No text content found in the PowerPoint file.".data
  else metaBlock slides.length extracted_content.length ++ pyJoin "\n\n".data extracted_content

/-! ## Context Selector (`estimate_tokens`, `create_slide_summaries`,
`get_relevant_slides` and the branch of `chat_with_ai` that applies them) -/

/-- `estimate_tokens(text)`. -/
def estimate_tokens (text : List Char) : Nat := text.length / 4

/-- `content[:100] + "..."` truncation of a key point. -/
def truncKP (content : List Char) : List Char :=
  if 100 < content.length then content.take 100 ++ "...".data else content

/-- One iteration of the line loop of `create_slide_summaries`, updating
the pair (title, key_points). -/
def summaryStep (tk : List Char × List (List Char)) (line : List Char) :
    List Char × List (List Char) :=
  if "TITLE:".data.isPrefixOf line then (pyStrip (pyReplace "TITLE:".data [] line), tk.2)
  else if "CONTENT:".data.isPrefixOf line ∨ "TEXT:".data.isPrefixOf line then
    let content := pyStrip ((line.dropWhile (· ≠ ':')).drop 1)
    (tk.1, tk.2 ++ [truncKP content])
  else if "TABLE:".data.isPrefixOf line then (tk.1, tk.2 ++ ["Contains table data".data])
  else tk

/-- The rendering step of `create_slide_summaries`: `f"Slide {i}: {title}"`
when a title was found, else `f"Slide {i}"`, with the key-points suffix
appended when any key points were collected. -/
def slide_summary_render (i : Nat) (tk : List Char × List (List Char)) : List Char :=
  (if tk.1 ≠ [] then "Slide ".data ++ natRepr i ++ ": ".data ++ tk.1
   else "Slide ".data ++ natRepr i) ++
  (if tk.2 ≠ [] then " - Key points: ".data ++ pyJoin "; ".data (tk.2.take 3) else [])

/-- The summary line built for the `i`-th (1-based, positional) slide chunk. -/
def slide_summary_core (i : Nat) (slide_content : List Char) : List Char :=
  let lines := pySplit ['\n'] (pyStrip slide_content)
  slide_summary_render i (lines.foldl summaryStep ([], []))

/-- The loop `for i, slide_content in enumerate(slides[1:], 1)`. -/
def summariesAux : Nat → List (List Char) → List (List Char)
  | _, [] => []
  | i, c :: cs => slide_summary_core i c :: summariesAux (i + 1) cs

/-- `create_slide_summaries(document_content)`. -/
def create_slide_summaries (document_content : List Char) : List (List Char) :=
  summariesAux 1 ((pySplit marker document_content).drop 1)

/-- The no-valid-reference tail of `get_relevant_slides` (first five slides
verbatim plus summaries of the remainder, or the document itself when it
has no slide markers). -/
def fallback_selection (document_content : List Char) : List Char :=
  let slides := pySplit marker document_content
  if 1 < slides.length then
    let first_slides := (slides.drop 1).take 5
    let remaining_slides := if 6 < slides.length then slides.drop 6 else []
    let content_parts := first_slides.map (fun s => marker ++ s)
    let content_parts :=
      if remaining_slides ≠ [] then
        content_parts ++
          ["\nSUMMARY OF REMAINING SLIDES:\n".data
            ++ pyJoin "\n".data ((create_slide_summaries document_content).drop 5)]
      else content_parts
    pyJoin "\n\n".data content_parts
  else document_content

/-- `get_relevant_slides(document_content, user_message)`. -/
def get_relevant_slides (document_content user_message : List Char) : List Char :=
  let slide_numbers := findSlideRefs (pyLower user_message)
  let slides := pySplit marker document_content
  let relevant_content := slide_numbers.filterMap (fun slide_index =>
    if 0 < slide_index ∧ slide_index < slides.length then
      some (marker ++ slides.getD slide_index [])
    else none)
  if relevant_content ≠ [] then pyJoin "\n\n".data relevant_content
  else fallback_selection document_content

/-- The context actually forwarded to the chat call by `chat_with_ai`
(lines 370-391): the full document under the 12000-token budget, the
reduced selection above it. -/
def select_context (document_context user_message : List Char) : List Char :=
  if 12000 < estimate_tokens document_context then
    get_relevant_slides document_context user_message
  else document_context

/-! ## Chat Orchestrator (`chat_with_ai`, transcript handling) -/

/-- The system prompt assembled by `chat_with_ai`. -/
def build_system_prompt (user_message document_context : List Char) : List Char :=
  let base := "You are a helpful AI assistant specialized in analyzing presentations and documents. ".data
  if document_context ≠ [] then
    let mid :=
      if 12000 < estimate_tokens document_context then
        let relevant_content := get_relevant_slides document_context user_message
        "The user has uploaded a large presentation. ".data
        ++ "You have access to relevant slide content based on their question. ".data
        ++ "If they ask about specific slides, provide detailed information from those slides. ".data
        ++ "If they ask general questions, provide a comprehensive overview based on the available content.\n\n".data
        ++ "RELEVANT PRESENTATION CONTENT:\n".data ++ relevant_content ++ "\n\n".data
        ++ "NOTE: This is a large presentation. If you need information from other slides, ask the user to specify which slides they are interested in.\n\n".data
        ++ (if containsSub "slide".data (pyLower user_message) then
              "IMPORTANT: The user is asking about a specific slide. Make sure to provide comprehensive details from the slide content above. Look for all text, tables, and content within that slide.\n\n".data
            else [])
      else
        "Here is the content from the uploaded document:\n".data
          ++ document_context ++ "\n\n".data
    base ++ mid
    ++ "Please provide detailed, accurate responses about the document content. ".data
    ++ "When referencing specific slides, mention the slide number. ".data
    ++ "If asked about specific details, provide comprehensive information from the relevant slides.".data
  else base ++ "Please help the user with their questions.".data

/-- One transcript entry (`st.session_state.messages` element). -/
structure ChatMessage where
  role : List Char
  content : List Char
deriving DecidableEq

/-- `chat_with_ai(client, user_message, document_context)`: the remote
chat-completion call is a parameter returning either a reply or a failure
description; any failure is rendered as an `"Error: "`-prefixed string
instead of being raised. -/
def chat_with_ai (remote : List Char → List Char → Except (List Char) (List Char))
    (user_message document_context : List Char) : List Char :=
  match remote (build_system_prompt user_message document_context) user_message with
  | .ok reply => reply
  | .error e => "Error: ".data ++ e

/-- One chat interaction of the UI (lines 535-554): append the user
message, obtain the reply via `chat_with_ai`, append it as the assistant
message. -/
def handle_chat_turn (remote : List Char → List Char → Except (List Char) (List Char))
    (messages : List ChatMessage) (prompt document_content : List Char) :
    List ChatMessage :=
  let withUser := messages ++ [⟨"user".data, prompt⟩]
  let response := chat_with_ai remote prompt document_content
  withUser ++ [⟨"assistant".data, response⟩]

/-! ## Lemmas about the string primitives -/

theorem pySplitAux_fuel (sep : List Char) (hsep : sep ≠ []) :
    ∀ f₁ f₂ s, s.length ≤ f₁ → s.length ≤ f₂ →
      pySplitAux sep f₁ s = pySplitAux sep f₂ s := by
  intro f₁
  induction f₁ with
  | zero =>
    intro f₂ s hs _
    have : s = [] := List.eq_nil_of_length_eq_zero (Nat.le_zero.mp hs)
    subst this
    cases f₂ <;> rfl
  | succ f ih =>
    intro f₂ s hs₁ hs₂
    cases s with
    | nil => cases f₂ <;> rfl
    | cons c l =>
      cases f₂ with
      | zero => simp at hs₂
      | succ g =>
        have hsep1 : 1 ≤ sep.length := List.length_pos.mpr hsep
        simp only [pySplitAux]
        by_cases hp : sep.isPrefixOf (c :: l)
        · simp only [hp, if_true]
          have hlen : ((c :: l).drop sep.length).length ≤ l.length := by
            simp only [List.length_drop, List.length_cons]
            omega
          rw [ih g _ (le_trans hlen (by simpa using hs₁))
                (le_trans hlen (by simpa using hs₂))]
        · simp only [hp, if_false]
          rw [ih g l (by simpa using hs₁) (by simpa using hs₂)]
          simp

theorem pySplit_cons_pos (sep : List Char) (hsep : sep ≠ []) (c : Char) (l : List Char)
    (h : sep.isPrefixOf (c :: l) = true) :
    pySplit sep (c :: l) = [] :: pySplit sep ((c :: l).drop sep.length) := by
  have hsep1 : 1 ≤ sep.length := List.length_pos.mpr hsep
  show pySplitAux sep (l.length + 1) (c :: l) = _
  simp only [pySplitAux, h, if_true]
  congr 1
  exact pySplitAux_fuel sep hsep l.length ((c :: l).drop sep.length).length _
    (by simp only [List.length_drop, List.length_cons]; omega) (le_refl _)

theorem pySplit_cons_neg (sep : List Char) (c : Char) (l : List Char)
    (h : sep.isPrefixOf (c :: l) = false) :
    pySplit sep (c :: l) =
      match pySplit sep l with
      | [] => [[c]]
      | t :: ts => (c :: t) :: ts := by
  show pySplitAux sep (l.length + 1) (c :: l) = _
  simp only [pySplitAux, h, if_false]
  rfl

/-- Structural properties of `pySplit`: the result is non-empty, its head is
a prefix of the input, and no returned chunk contains the separator. -/
theorem pySplit_spec (sep : List Char) (hsep : sep ≠ []) :
    ∀ n s, s.length ≤ n →
      ∃ t ts, pySplit sep s = t :: ts ∧ t <+: s ∧ ∀ u ∈ pySplit sep s, ¬ sep <:+: u := by
  intro n
  induction n with
  | zero =>
    intro s hs
    have : s = [] := List.eq_nil_of_length_eq_zero (Nat.le_zero.mp hs)
    subst this
    refine ⟨[], [], rfl, List.nil_prefix, ?_⟩
    intro u hu hinf
    simp only [pySplit, pySplitAux, List.mem_singleton] at hu
    subst hu
    exact hsep (List.eq_nil_of_infix_nil hinf)
  | succ n ih =>
    intro s hs
    cases s with
    | nil =>
      refine ⟨[], [], rfl, List.nil_prefix, ?_⟩
      intro u hu hinf
      simp only [pySplit, pySplitAux, List.mem_singleton] at hu
      subst hu
      exact hsep (List.eq_nil_of_infix_nil hinf)
    | cons c l =>
      have hsep1 : 1 ≤ sep.length := List.length_pos.mpr hsep
      by_cases hp : sep.isPrefixOf (c :: l)
      · rw [pySplit_cons_pos sep hsep c l hp]
        have hdlen : ((c :: l).drop sep.length).length ≤ n := by
          simp only [List.length_drop, List.length_cons]
          simp only [List.length_cons] at hs
          omega
        obtain ⟨t, ts, heq, _, hni⟩ := ih _ hdlen
        refine ⟨[], pySplit sep ((c :: l).drop sep.length), rfl, List.nil_prefix, ?_⟩
        intro u hu hinf
        rcases List.mem_cons.mp hu with rfl | hu
        · exact hsep (List.eq_nil_of_infix_nil hinf)
        · exact hni u hu hinf
      · have hl : l.length ≤ n := by
          simp only [List.length_cons] at hs
          omega
        obtain ⟨t, ts, heq, hpre, hni⟩ := ih l hl
        rw [pySplit_cons_neg sep c l (Bool.eq_false_iff.mpr hp), heq]
        refine ⟨c :: t, ts, rfl, (List.cons_prefix_cons).mpr ⟨rfl, hpre⟩, ?_⟩
        intro u hu hinf
        rcases List.mem_cons.mp hu with rfl | hu
        · rcases List.infix_cons_iff.mp hinf with hpfx | hinf2
          · have : sep <+: c :: l :=
              hpfx.trans ((List.cons_prefix_cons).mpr ⟨rfl, hpre⟩)
            exact hp (List.isPrefixOf_iff_prefix.mpr this)
          · exact hni t (heq ▸ List.mem_cons_self t ts) hinf2
        · exact hni u (heq ▸ List.mem_cons_of_mem t hu) hinf

theorem pySplit_ne_nil (sep : List Char) (hsep : sep ≠ []) (s : List Char) :
    pySplit sep s ≠ [] := by
  obtain ⟨t, ts, heq, -, -⟩ := pySplit_spec sep hsep s.length s (le_refl _)
  simp [heq]

theorem pySplit_chunk_marker_free (sep : List Char) (hsep : sep ≠ []) (s : List Char)
    {u : List Char} (hu : u ∈ pySplit sep s) : ¬ sep <:+: u := by
  obtain ⟨t, ts, -, -, hni⟩ := pySplit_spec sep hsep s.length s (le_refl _)
  exact hni u hu

/-- Splitting a string whose first `s.length` positions carry no occurrence
of the separator prepends `s` onto the first chunk of the rest. -/
theorem pySplit_append_no_occ (sep : List Char) :
    ∀ s r t ts, pySplit sep r = t :: ts →
      (∀ p, p < s.length → sep.isPrefixOf ((s ++ r).drop p) = false) →
      pySplit sep (s ++ r) = (s ++ t) :: ts := by
  intro s
  induction s with
  | nil =>
    intro r t ts hr _
    simpa using hr
  | cons c s' ih =>
    intro r t ts hr hno
    have h0 : sep.isPrefixOf (c :: (s' ++ r)) = false := by
      have := hno 0 (by simp)
      simpa using this
    rw [List.cons_append, pySplit_cons_neg sep c (s' ++ r) h0]
    have hrec : pySplit sep (s' ++ r) = (s' ++ t) :: ts := by
      refine ih r t ts hr ?_
      intro p hp
      have := hno (p + 1) (by simpa using Nat.succ_lt_succ hp)
      simpa using this
    rw [hrec]
    rfl

/-- No occurrence of the marker can start inside a region free of `'='`. -/
theorem no_occ_of_no_eq (s r : List Char) (h : '=' ∉ s) :
    ∀ p, p < s.length → marker.isPrefixOf ((s ++ r).drop p) = false := by
  intro p hp
  rw [Bool.eq_false_iff]
  intro hpf
  obtain ⟨v, hv⟩ := List.isPrefixOf_iff_prefix.mp hpf
  apply h
  have h0q : ((s ++ r).drop p)[0]? = some '=' := by
    rw [← hv]
    rfl
  rw [List.getElem?_drop, Nat.add_zero, List.getElem?_append_left hp] at h0q
  exact List.getElem?_mem h0q

theorem containsSub_eq_true_iff (needle hay : List Char) :
    containsSub needle hay = true ↔ needle <:+: hay := by
  constructor
  · intro h
    simp only [containsSub, List.any_eq_true, List.mem_range] at h
    obtain ⟨i, -, hpf⟩ := h
    obtain ⟨v, hv⟩ := List.isPrefixOf_iff_prefix.mp hpf
    refine ⟨hay.take i, v, ?_⟩
    conv_rhs => rw [← List.take_append_drop i hay]
    rw [← hv, List.append_assoc]
  · rintro ⟨u, v, rfl⟩
    simp only [containsSub, List.any_eq_true, List.mem_range]
    refine ⟨u.length, by simp only [List.length_append]; omega, ?_⟩
    rw [List.append_assoc, List.drop_left]
    exact List.isPrefixOf_iff_prefix.mpr ⟨v, rfl⟩

theorem containsSub_false_iff (needle hay : List Char) :
    containsSub needle hay = false ↔ ¬ needle <:+: hay := by
  rw [← containsSub_eq_true_iff, Bool.eq_false_iff]

theorem containsSub_marker_false_of_no_eq (s : List Char) (h : '=' ∉ s) :
    containsSub marker s = false := by
  rw [containsSub_false_iff]
  intro hinf
  obtain ⟨u, v, huv⟩ := hinf
  apply h
  rw [← huv]
  have hm : '=' ∈ marker := by decide
  simp only [List.mem_append]
  tauto

theorem pySplit_of_no_occ (sep s : List Char)
    (h : ∀ p, p < s.length → sep.isPrefixOf (s.drop p) = false) :
    pySplit sep s = [s] := by
  have := pySplit_append_no_occ sep s [] [] [] rfl (by
    intro p hp
    have := h p hp
    simpa using this)
  simpa using this

theorem pySplit_of_marker_free (s : List Char) (h : ¬ marker <:+: s) :
    pySplit marker s = [s] := by
  refine pySplit_of_no_occ marker s ?_
  intro p hp
  rw [Bool.eq_false_iff]
  intro hpf
  apply h
  obtain ⟨v, hv⟩ := List.isPrefixOf_iff_prefix.mp hpf
  refine ⟨s.take p, v, ?_⟩
  conv_rhs => rw [← List.take_append_drop p s]
  rw [← hv, List.append_assoc]

theorem marker_cons_form : marker = '=' :: "== SLIDE".data := rfl

/-- Splitting off a leading marker. -/
theorem pySplit_marker_append (t : List Char) :
    pySplit marker (marker ++ t) = [] :: pySplit marker t := by
  have hpf : marker.isPrefixOf (marker ++ t) = true :=
    List.isPrefixOf_iff_prefix.mpr ⟨t, rfl⟩
  have hform : marker ++ t = '=' :: ("== SLIDE".data ++ t) := rfl
  rw [hform] at hpf ⊢
  rw [pySplit_cons_pos marker (by decide) _ _ hpf]
  congr 1

theorem marker_length_eq : marker.length = 9 := rfl

/-- In `marker ++ t` with `t` free of the marker, the only occurrence of the
marker starts at position 0 (the marker has no non-trivial self-overlap). -/
theorem marker_occurrence_zero (t : List Char) (ht : ¬ marker <:+: t) :
    ∀ p, marker <+: (marker ++ t).drop p → p = 0 := by
  intro p hpf
  by_contra hne
  have hp1 : 1 ≤ p := Nat.one_le_iff_ne_zero.mpr hne
  by_cases hp9 : p < 9
  · have hd : (marker ++ t).drop p = marker.drop p ++ t :=
      List.drop_append_of_le_length (by rw [marker_length_eq]; omega)
    rw [hd] at hpf
    have heq := List.prefix_iff_eq_take.mp hpf
    rw [List.take_append_eq_append_take, marker_length_eq,
        List.take_of_length_le (by simp [List.length_drop, marker_length_eq])] at heq
    have hpre : marker.drop p <+: marker :=
      ⟨t.take (9 - (marker.drop p).length), heq.symm⟩
    interval_cases p <;> revert hpre <;> decide
  · have h9p : 9 ≤ p := by omega
    have hd : (marker ++ t).drop p = t.drop (p - 9) := by
      have hsplit : p = marker.length + (p - 9) := by rw [marker_length_eq]; omega
      conv_lhs => rw [hsplit]
      rw [List.drop_append]
    rw [hd] at hpf
    apply ht
    obtain ⟨v, hv⟩ := hpf
    refine ⟨t.take (p - 9), v, ?_⟩
    conv_rhs => rw [← List.take_append_drop (p - 9) t]
    rw [← hv, List.append_assoc]

/-- A marker-headed block contained in another marker-headed block whose tail
is marker-free must sit at the very beginning, so its tail is a prefix of the
other tail. -/
theorem block_infix_prefix (ti t3 : List Char) (h3 : ¬ marker <:+: t3)
    (h : (marker ++ ti) <:+: (marker ++ t3)) : ti <+: t3 := by
  obtain ⟨u, v, huv⟩ := h
  have hpf : marker <+: (marker ++ t3).drop u.length := by
    rw [← huv, List.append_assoc, List.append_assoc, List.drop_left]
    exact ⟨ti ++ v, rfl⟩
  have hu0 : u.length = 0 := marker_occurrence_zero t3 h3 u.length hpf
  have hu : u = [] := List.eq_nil_of_length_eq_zero hu0
  subst hu
  simp only [List.nil_append, List.append_assoc] at huv
  have := List.append_cancel_left huv
  exact ⟨v, this⟩

theorem newline_not_mem_marker : '\n' ∉ marker := by decide

theorem marker_free_snoc_newline (t : List Char) (h : ¬ marker <:+: t) :
    ¬ marker <:+: (t ++ ['\n']) := by
  intro hinf
  have hrev : marker.reverse <:+: (t ++ ['\n']).reverse := List.reverse_infix.mpr hinf
  rw [List.reverse_append] at hrev
  simp only [List.reverse_singleton, List.singleton_append] at hrev
  rcases List.infix_cons_iff.mp hrev with hpfx | hinf2
  · have hmr : marker.reverse = 'E' :: "DILS ===".data := by decide
    rw [hmr] at hpfx
    have := (List.cons_prefix_cons.mp hpfx).1
    simp at this
  · exact h (List.reverse_infix.mp hinf2)

/-- No occurrence of the marker can start inside `t ++ "\n\n"` when `t` is
marker-free, whatever follows: an occurrence either lies inside
`t ++ "\n\n"` (impossible since the marker has no newline) or covers the
final newline (impossible for the same reason). -/
theorem no_occ_tail_nn (t r : List Char) (ht : ¬ marker <:+: t) :
    ∀ p, p < (t ++ "\n\n".data).length →
      marker.isPrefixOf (((t ++ "\n\n".data) ++ r).drop p) = false := by
  intro p hp
  rw [Bool.eq_false_iff]
  intro hpf0
  have hpf := List.isPrefixOf_iff_prefix.mp hpf0
  set x := t ++ "\n\n".data with hx
  have hxnn : ¬ marker <:+: x := by
    have h1 := marker_free_snoc_newline t ht
    have h2 := marker_free_snoc_newline (t ++ ['\n']) h1
    intro hinf
    apply h2
    have : x = (t ++ ['\n']) ++ ['\n'] := by
      rw [hx, List.append_assoc]
      rfl
    rw [← this]
    exact hinf
  by_cases hcase : p + 9 ≤ x.length
  · have hd : (x ++ r).drop p = x.drop p ++ r :=
      List.drop_append_of_le_length (by omega)
    rw [hd] at hpf
    have heq := List.prefix_iff_eq_take.mp hpf
    rw [List.take_append_eq_append_take, marker_length_eq] at heq
    have hz : 9 - (x.drop p).length = 0 := by
      simp only [List.length_drop]
      omega
    rw [hz, List.take_zero, List.append_nil] at heq
    have hpre : marker <+: x.drop p := by
      rw [heq]
      exact List.take_prefix 9 (x.drop p)
    apply hxnn
    obtain ⟨w, hw⟩ := hpre
    refine ⟨x.take p, w, ?_⟩
    conv_rhs => rw [← List.take_append_drop p x]
    rw [← hw, List.append_assoc]
  · have hj : x.length - 1 - p < 9 := by omega
    have hidx : p + (x.length - 1 - p) = x.length - 1 := by omega
    have hm9 : x.length - 1 - p < marker.length := by rw [marker_length_eq]; omega
    have hq : marker[x.length - 1 - p]? = ((x ++ r).drop p)[x.length - 1 - p]? := by
      obtain ⟨v, hv⟩ := hpf
      rw [← hv, List.getElem?_append_left hm9]
    rw [List.getElem?_drop, hidx] at hq
    have hxlast : (x ++ r)[x.length - 1]? = some '\n' := by
      rw [List.getElem?_append_left (by omega)]
      have hxl : x.length - 1 = t.length + 1 := by
        rw [hx]
        simp only [List.length_append, List.length_cons, List.length_nil]
        omega
      rw [hx, hxl, List.getElem?_append_right (by omega)]
      simp
    rw [hxlast] at hq
    exact newline_not_mem_marker (List.getElem?_mem hq)

/-- The chunks produced by splitting a `"\n\n"`-joined list of marker-headed
blocks: every tail except the last keeps its `"\n\n"` separator. -/
def chunksOf : List (List Char) → List (List Char)
  | [] => []
  | [t] => [t]
  | t :: ts => (t ++ "\n\n".data) :: chunksOf ts

theorem chunksOf_length : ∀ l : List (List Char), (chunksOf l).length = l.length
  | [] => rfl
  | [_] => rfl
  | _ :: t' :: ts => by
    simp only [chunksOf, List.length_cons]
    exact congrArg (· + 1) (chunksOf_length (t' :: ts))

theorem chunksOf_getD : ∀ (l : List (List Char)) (m : Nat), m < l.length →
    (chunksOf l).getD m [] =
      (l.getD m []) ++ (if m = l.length - 1 then [] else "\n\n".data)
  | [], m, h => by simp at h
  | [t], m, h => by
    have : m = 0 := by simpa using Nat.lt_one_iff.mp (by simpa using h)
    subst this
    simp [chunksOf]
  | t :: t' :: ts, m, h => by
    cases m with
    | zero =>
      have : ¬ (0 = (t :: t' :: ts).length - 1) := by
        simp only [List.length_cons]
        omega
      simp only [chunksOf, List.getD_cons_zero, this, if_false]
    | succ m =>
      have hm : m < (t' :: ts).length := by
        simpa using Nat.lt_of_succ_lt_succ h
      have hrec := chunksOf_getD (t' :: ts) m hm
      simp only [chunksOf, List.getD_cons_succ]
      rw [hrec]
      have hiff : (m = (t' :: ts).length - 1) ↔ (m + 1 = (t :: t' :: ts).length - 1) := by
        simp only [List.length_cons]
        omega
      by_cases hc : m = (t' :: ts).length - 1
      · rw [if_pos hc, if_pos (hiff.mp hc)]
      · rw [if_neg hc, if_neg (fun hcc => hc (hiff.mpr hcc))]

theorem pyJoin_cons_cons (sep x y : List Char) (ys : List (List Char)) :
    pyJoin sep (x :: y :: ys) = x ++ sep ++ pyJoin sep (y :: ys) := rfl

theorem pyJoin_cons_of_ne_nil (sep x : List Char) (xs : List (List Char)) (h : xs ≠ []) :
    pyJoin sep (x :: xs) = x ++ sep ++ pyJoin sep xs := by
  cases xs with
  | nil => exact absurd rfl h
  | cons y ys => rfl

/-- Splitting the `"\n\n"`-join of marker-headed blocks recovers the empty
leading chunk followed by the blocks' tails (with their separators). -/
theorem pySplit_glue :
    ∀ tails : List (List Char), tails ≠ [] → (∀ t ∈ tails, ¬ marker <:+: t) →
      pySplit marker (pyJoin "\n\n".data (tails.map (fun t => marker ++ t))) =
        [] :: chunksOf tails
  | [], h, _ => absurd rfl h
  | [t], _, hfree => by
    simp only [List.map_cons, List.map_nil, pyJoin]
    rw [pySplit_marker_append t,
        pySplit_of_marker_free t (hfree t (List.mem_singleton_self t))]
    rfl
  | t :: t' :: ts, _, hfree => by
    have hrec := pySplit_glue (t' :: ts) (by simp)
      (fun u hu => hfree u (List.mem_cons_of_mem t hu))
    simp only [List.map_cons] at hrec ⊢
    rw [pyJoin_cons_cons]
    have hassoc : marker ++ t ++ "\n\n".data
        ++ pyJoin "\n\n".data ((marker ++ t') :: ts.map (fun u => marker ++ u))
        = marker ++ ((t ++ "\n\n".data)
          ++ pyJoin "\n\n".data ((marker ++ t') :: ts.map (fun u => marker ++ u))) := by
      simp only [List.append_assoc]
    rw [hassoc, pySplit_marker_append]
    have hL5 := pySplit_append_no_occ marker (t ++ "\n\n".data)
      (pyJoin "\n\n".data ((marker ++ t') :: ts.map (fun u => marker ++ u)))
      [] (chunksOf (t' :: ts)) hrec
      (no_occ_tail_nn t _ (hfree t (List.mem_cons_self t (t' :: ts))))
    rw [hL5]
    simp only [List.append_nil]
    rfl

/-- Splitting a document of the form `pre ++ joined blocks` where `pre`
contains no `'='`. -/
theorem pySplit_meta_glue (pre : List Char) (tails : List (List Char))
    (hpre : '=' ∉ pre) (hne : tails ≠ []) (hfree : ∀ t ∈ tails, ¬ marker <:+: t) :
    pySplit marker (pre ++ pyJoin "\n\n".data (tails.map (fun t => marker ++ t))) =
      pre :: chunksOf tails := by
  have h := pySplit_append_no_occ marker pre
    (pyJoin "\n\n".data (tails.map (fun t => marker ++ t)))
    [] (chunksOf tails) (pySplit_glue tails hne hfree)
    (no_occ_of_no_eq pre _ hpre)
  simpa using h

/-- Splitting a document with a marker-free filler in front: the filler is
absorbed into the first chunk. -/
theorem pySplit_filler (n : Nat) (r t : List Char) (ts : List (List Char))
    (h : pySplit marker r = t :: ts) :
    pySplit marker (List.replicate n 'x' ++ r) = (List.replicate n 'x' ++ t) :: ts := by
  refine pySplit_append_no_occ marker (List.replicate n 'x') r t ts h ?_
  refine no_occ_of_no_eq _ _ ?_
  intro hmem
  have := (List.mem_replicate.mp hmem).2
  simp at this

theorem getD_map_of_lt (f : List Char → List Char) (l : List (List Char))
    (m : Nat) (h : m < l.length) :
    (l.map f).getD m [] = f (l.getD m []) := by
  rw [List.getD_eq_getElem l [] h,
      List.getD_eq_getElem (l.map f) [] (by simpa using h)]
  simp

theorem pyJoin_singleton (sep x : List Char) : pyJoin sep [x] = x := rfl

theorem pyJoin_ne_nil_of_head_ne_nil (sep x : List Char) (xs : List (List Char))
    (hx : x ≠ []) : pyJoin sep (x :: xs) ≠ [] := by
  cases xs with
  | nil => simpa using hx
  | cons y ys =>
    rw [pyJoin_cons_cons]
    simp only [ne_eq, List.append_eq_nil]
    intro hcon
    exact hx hcon.1.1

/-! ## Lemmas about the extraction pipeline -/

/-- Whether a slide's notes contribute no text (absent notes count as blank). -/
def notes_blank (sl : Slide) : Bool :=
  match sl.notes with
  | none => true
  | some ns => (pyStrip (extract_text_from_shapes ns)).isEmpty

theorem shapeLinesAux_length : ∀ (k : Nat) (l : List Shape),
    (shapeLinesAux k l).length = l.length
  | _, [] => rfl
  | k, _ :: rest => by
    simp only [shapeLinesAux, List.length_cons]
    exact congrArg (· + 1) (shapeLinesAux_length (k + 1) rest)

/-- A slide is omitted from the document body exactly when it has no shapes
and no non-blank notes: every shape contributes a line (its text or a DEBUG
placeholder). -/
theorem extract_slide_content_eq_none_iff (sl : Slide) (i : Nat) :
    extract_slide_content sl i = none ↔ sl.shapes = [] ∧ notes_blank sl = true := by
  obtain ⟨shapes, notes⟩ := sl
  cases notes with
  | none =>
    simp only [extract_slide_content, notes_blank]
    cases shapes with
    | nil => simp [shapeLinesAux]
    | cons s rest =>
      constructor
      · intro h
        rw [if_pos (by simp [shapeLinesAux])] at h
        exact absurd h (by simp)
      · rintro ⟨hcon, -⟩
        exact absurd hcon (by simp)
  | some ns =>
    by_cases hstrip : pyStrip (extract_text_from_shapes ns) = []
    · cases shapes with
      | nil => simp [extract_slide_content, notes_blank, shapeLinesAux, hstrip]
      | cons s rest => simp [extract_slide_content, notes_blank, shapeLinesAux, hstrip]
    · simp [extract_slide_content, notes_blank, hstrip, List.isEmpty_iff]

/-- The original (1-based) indices of the slides that contribute a block to
the document body, in order. -/
def contributors : Nat → List Slide → List Nat
  | _, [] => []
  | i, sl :: rest =>
    if extract_slide_content sl i = none then contributors (i + 1) rest
    else i :: contributors (i + 1) rest

theorem contributors_cons_none {sl : Slide} {k : Nat} (rest : List Slide)
    (hsl : extract_slide_content sl k = none) :
    contributors k (sl :: rest) = contributors (k + 1) rest := by
  simp [contributors, hsl]

theorem contributors_cons_some {sl : Slide} {k : Nat} (rest : List Slide)
    (hsl : extract_slide_content sl k ≠ none) :
    contributors k (sl :: rest) = k :: contributors (k + 1) rest := by
  simp [contributors, hsl]

theorem extractAll_cons_none {sl : Slide} {k : Nat} (rest : List Slide)
    (hsl : extract_slide_content sl k = none) :
    extractAll k (sl :: rest) = extractAll (k + 1) rest := by
  simp [extractAll, hsl]

theorem extractAll_cons_some {sl : Slide} {k : Nat} (rest : List Slide) {b : List Char}
    (hsl : extract_slide_content sl k = some b) :
    extractAll k (sl :: rest) = b :: extractAll (k + 1) rest := by
  simp [extractAll, hsl]

theorem extractAll_length_eq : ∀ (l : List Slide) (k : Nat),
    (extractAll k l).length = (contributors k l).length
  | [], _ => rfl
  | sl :: rest, k => by
    cases h : extract_slide_content sl k with
    | none =>
      rw [extractAll_cons_none rest h, contributors_cons_none rest h]
      exact extractAll_length_eq rest (k + 1)
    | some b =>
      rw [extractAll_cons_some rest h, contributors_cons_some rest (by simp [h])]
      simpa using extractAll_length_eq rest (k + 1)

/-- Every produced slide block begins with its header line
`"=== SLIDE <n> ===\n"` (the newline is there because the block has at least
one further line). -/
theorem extract_slide_content_header (sl : Slide) (i : Nat) (b : List Char)
    (h : extract_slide_content sl i = some b) :
    ("=== SLIDE ".data ++ natRepr i ++ " ===\n".data) <+: b := by
  unfold extract_slide_content at h
  set rest := (match sl.notes with
    | some nshapes =>
      let notes_text := extract_text_from_shapes nshapes
      if pyStrip notes_text ≠ [] then [("NOTES: ".data ++ pyStrip notes_text)] else []
    | none => ([] : List (List Char))) ++ shapeLinesAux 1 sl.shapes with hrest
  simp only [← hrest] at h
  by_cases hc : 1 < (("=== SLIDE ".data ++ natRepr i ++ " ===".data) :: rest).length
  · rw [if_pos hc] at h
    have hb : pyJoin "\n".data (("=== SLIDE ".data ++ natRepr i ++ " ===".data) :: rest) = b := by
      simpa using h
    have hrne : rest ≠ [] := by
      intro hcon
      rw [hcon] at hc
      simp at hc
    rw [← hb, pyJoin_cons_of_ne_nil _ _ _ hrne]
    refine ⟨pyJoin "\n".data rest, ?_⟩
    simp only [List.append_assoc]
    rfl
  · rw [if_neg hc] at h
    exact absurd h (by simp)

theorem marker_prefix_general (i : Nat) (u : List Char) :
    marker <+: ("=== SLIDE ".data ++ natRepr i ++ u) := by
  refine ⟨[' '] ++ natRepr i ++ u, ?_⟩
  simp only [List.append_assoc]
  rfl

theorem marker_prefix_of_header_prefix (b : List Char) (i : Nat)
    (h : ("=== SLIDE ".data ++ natRepr i ++ " ===\n".data) <+: b) : marker <+: b :=
  (marker_prefix_general i " ===\n".data).trans h

theorem eq_marker_append_drop (b : List Char) (h : marker <+: b) :
    b = marker ++ b.drop 9 := by
  obtain ⟨t, ht⟩ := h
  rw [← ht]
  congr 1

/-- The `m`-th block of the extracted document carries the header of the
`m`-th contributing slide. -/
theorem extractAll_getD_header : ∀ (l : List Slide) (k m : Nat),
    m < (extractAll k l).length →
    ("=== SLIDE ".data ++ natRepr ((contributors k l).getD m 0) ++ " ===\n".data)
      <+: (extractAll k l).getD m []
  | [], _, m, h => by simp [extractAll] at h
  | sl :: rest, k, m, h => by
    cases hsl : extract_slide_content sl k with
    | none =>
      rw [extractAll_cons_none rest hsl] at h ⊢
      rw [contributors_cons_none rest hsl]
      exact extractAll_getD_header rest (k + 1) m h
    | some b =>
      rw [extractAll_cons_some rest hsl] at h ⊢
      rw [contributors_cons_some rest (by simp [hsl])]
      cases m with
      | zero =>
        simp only [List.getD_cons_zero]
        exact extract_slide_content_header sl k b hsl
      | succ m =>
        simp only [List.getD_cons_succ]
        exact extractAll_getD_header rest (k + 1) m (by simpa using h)

theorem contributors_lb : ∀ (l : List Slide) (k m : Nat),
    m < (contributors k l).length → k + m ≤ (contributors k l).getD m 0
  | [], _, m, h => by simp [contributors] at h
  | sl :: rest, k, m, h => by
    by_cases hsl : extract_slide_content sl k = none
    · rw [contributors_cons_none rest hsl] at h ⊢
      have := contributors_lb rest (k + 1) m h
      omega
    · rw [contributors_cons_some rest hsl] at h ⊢
      cases m with
      | zero => simp
      | succ m =>
        simp only [List.getD_cons_succ]
        have := contributors_lb rest (k + 1) m (by simpa using h)
        omega

/-- The `m`-th contributing slide is slide `k + m` exactly when every earlier
position also matches, i.e. when all of the first `m + 1` slides contribute. -/
theorem contributors_eq_iff : ∀ (l : List Slide) (k m : Nat),
    m < (contributors k l).length →
    ((contributors k l).getD m 0 = k + m ↔
      ∀ j, j ≤ m → (contributors k l).getD j 0 = k + j)
  | [], _, m, h => by simp [contributors] at h
  | sl :: rest, k, m, h => by
    by_cases hsl : extract_slide_content sl k = none
    · rw [contributors_cons_none rest hsl] at h ⊢
      have hlb' := contributors_lb rest (k + 1) m h
      constructor
      · intro hEq
        omega
      · intro hAll
        have := hAll 0 (Nat.zero_le m)
        have hlb0 := contributors_lb rest (k + 1) 0 (by omega)
        omega
    · rw [contributors_cons_some rest hsl] at h ⊢
      cases m with
      | zero =>
        simp only [List.getD_cons_zero]
        constructor
        · intro _ j hj
          have : j = 0 := Nat.le_zero.mp hj
          subst this
          simp
        · intro _
          simp
      | succ m =>
        have h' : m < (contributors (k + 1) rest).length := by simpa using h
        have hrec := contributors_eq_iff rest (k + 1) m h'
        simp only [List.getD_cons_succ]
        constructor
        · intro hEq j hj
          cases j with
          | zero => simp
          | succ j =>
            simp only [List.getD_cons_succ]
            have := (hrec.mp (by omega)) j (by omega)
            omega
        · intro hAll
          have hshift : ∀ j, j ≤ m → (contributors (k + 1) rest).getD j 0 = (k + 1) + j := by
            intro j hj
            have := hAll (j + 1) (by omega)
            simp only [List.getD_cons_succ] at this
            omega
          have := hrec.mpr hshift
          omega

theorem digitChar_ne (d : Nat) : digitChar d ≠ '=' ∧ digitChar d ≠ '\n' := by
  rcases d with _|_|_|_|_|_|_|_|_|d
  · exact ⟨(by decide : ('0' : Char) ≠ '='), (by decide : ('0' : Char) ≠ '\n')⟩
  · exact ⟨(by decide : ('1' : Char) ≠ '='), (by decide : ('1' : Char) ≠ '\n')⟩
  · exact ⟨(by decide : ('2' : Char) ≠ '='), (by decide : ('2' : Char) ≠ '\n')⟩
  · exact ⟨(by decide : ('3' : Char) ≠ '='), (by decide : ('3' : Char) ≠ '\n')⟩
  · exact ⟨(by decide : ('4' : Char) ≠ '='), (by decide : ('4' : Char) ≠ '\n')⟩
  · exact ⟨(by decide : ('5' : Char) ≠ '='), (by decide : ('5' : Char) ≠ '\n')⟩
  · exact ⟨(by decide : ('6' : Char) ≠ '='), (by decide : ('6' : Char) ≠ '\n')⟩
  · exact ⟨(by decide : ('7' : Char) ≠ '='), (by decide : ('7' : Char) ≠ '\n')⟩
  · exact ⟨(by decide : ('8' : Char) ≠ '='), (by decide : ('8' : Char) ≠ '\n')⟩
  · exact ⟨(by decide : ('9' : Char) ≠ '='), (by decide : ('9' : Char) ≠ '\n')⟩

theorem natDigitsAux_chars : ∀ (f n : Nat) (c : Char), c ∈ natDigitsAux f n →
    c ≠ '=' ∧ c ≠ '\n'
  | 0, _, _, h => by simp [natDigitsAux] at h
  | f + 1, n, c, h => by
    unfold natDigitsAux at h
    by_cases hn : n < 10
    · rw [if_pos hn] at h
      simp only [List.mem_singleton] at h
      subst h
      exact digitChar_ne n
    · rw [if_neg hn] at h
      rcases List.mem_append.mp h with h | h
      · exact natDigitsAux_chars f (n / 10) c h
      · simp only [List.mem_singleton] at h
        subst h
        exact digitChar_ne (n % 10)

theorem natRepr_chars (n : Nat) (c : Char) (h : c ∈ natRepr n) :
    c ≠ '=' ∧ c ≠ '\n' := natDigitsAux_chars (n + 1) n c h

theorem metaBlock_no_eq (a b : Nat) : '=' ∉ metaBlock a b := by
  intro h
  simp only [metaBlock, List.mem_append] at h
  rcases h with (((h | h) | h) | h) | h
  · exact absurd h (by decide)
  · exact (natRepr_chars a '=' h).1 rfl
  · exact absurd h (by decide)
  · exact (natRepr_chars b '=' h).1 rfl
  · exact absurd h (by decide)

theorem natRepr_ne_nil : ∀ n : Nat, natRepr n ≠ [] := by
  intro n
  unfold natRepr natDigitsAux
  by_cases hn : n < 10
  · simp [hn]
  · simp [hn]

/-! ## Lemmas about the slide summaries -/

theorem summariesAux_length : ∀ (k : Nat) (l : List (List Char)),
    (summariesAux k l).length = l.length
  | _, [] => rfl
  | k, _ :: rest => by
    simp only [summariesAux, List.length_cons]
    exact congrArg (· + 1) (summariesAux_length (k + 1) rest)

theorem slide_summary_render_prefix (i : Nat) (tk : List Char × List (List Char)) :
    ("Slide ".data ++ natRepr i) <+: slide_summary_render i tk := by
  unfold slide_summary_render
  refine List.IsPrefix.trans ?_ (List.prefix_append _ _)
  split
  · exact ⟨": ".data ++ tk.1, by simp [List.append_assoc]⟩
  · exact List.prefix_rfl

theorem slide_summary_core_prefix (i : Nat) (c : List Char) :
    ("Slide ".data ++ natRepr i) <+: slide_summary_core i c :=
  slide_summary_render_prefix i _

theorem slide_summary_core_ne_nil (i : Nat) (c : List Char) :
    slide_summary_core i c ≠ [] := by
  intro h
  have hp := slide_summary_core_prefix i c
  rw [h] at hp
  have := List.prefix_nil.mp hp
  simp only [List.append_eq_nil] at this
  exact absurd this.1 (by decide)

theorem summariesAux_getD_prefix : ∀ (l : List (List Char)) (k m : Nat),
    m < l.length →
    ("Slide ".data ++ natRepr (k + m)) <+: (summariesAux k l).getD m []
  | [], _, m, h => by simp at h
  | c :: rest, k, m, h => by
    cases m with
    | zero =>
      simp only [summariesAux, List.getD_cons_zero, Nat.add_zero]
      exact slide_summary_core_prefix k c
    | succ m =>
      simp only [summariesAux, List.getD_cons_succ]
      have := summariesAux_getD_prefix rest (k + 1) m (by simpa using h)
      have harith : k + 1 + m = k + (m + 1) := by omega
      rw [harith] at this
      exact this

theorem summariesAux_mem_form : ∀ (l : List (List Char)) (k : Nat) (x : List Char),
    x ∈ summariesAux k l → ∃ i c, x = slide_summary_core i c
  | [], _, x, h => by simp [summariesAux] at h
  | c :: rest, k, x, h => by
    rcases List.mem_cons.mp h with rfl | h
    · exact ⟨k, c, rfl⟩
    · exact summariesAux_mem_form rest (k + 1) x h

theorem create_slide_summaries_ne_nil (doc : List Char) (x : List Char)
    (h : x ∈ create_slide_summaries doc) : x ≠ [] := by
  obtain ⟨i, c, rfl⟩ := summariesAux_mem_form _ 1 x h
  exact slide_summary_core_ne_nil i c

theorem create_slide_summaries_length (doc : List Char) :
    (create_slide_summaries doc).length = (pySplit marker doc).length - 1 := by
  unfold create_slide_summaries
  rw [summariesAux_length]
  simp

/-! ## Lemmas about the Context Selector -/

theorem select_context_over (doc msg : List Char) (h : 12000 < estimate_tokens doc) :
    select_context doc msg = get_relevant_slides doc msg := by
  simp [select_context, h]

theorem select_context_under (doc msg : List Char) (h : estimate_tokens doc ≤ 12000) :
    select_context doc msg = doc := by
  simp [select_context, Nat.not_lt.mpr h]

theorem get_relevant_slides_no_valid (doc msg : List Char)
    (h : ∀ k ∈ findSlideRefs (pyLower msg), ¬(0 < k ∧ k < (pySplit marker doc).length)) :
    get_relevant_slides doc msg = fallback_selection doc := by
  have hnil : (findSlideRefs (pyLower msg)).filterMap (fun slide_index =>
      if 0 < slide_index ∧ slide_index < (pySplit marker doc).length then
        some (marker ++ (pySplit marker doc).getD slide_index [])
      else none) = [] := by
    rw [List.filterMap_eq_nil_iff]
    intro k hk
    rw [if_neg (h k hk)]
  simp only [get_relevant_slides, hnil]
  simp

theorem get_relevant_slides_single (doc msg : List Char) (N : Nat)
    (href : findSlideRefs (pyLower msg) = [N])
    (h0 : 0 < N) (hlt : N < (pySplit marker doc).length) :
    get_relevant_slides doc msg = marker ++ (pySplit marker doc).getD N [] := by
  simp only [get_relevant_slides, href, List.filterMap_cons, List.filterMap_nil,
    if_pos (And.intro h0 hlt)]
  simp [pyJoin_singleton]

theorem fallback_selection_id (doc : List Char)
    (h : ¬ 1 < (pySplit marker doc).length) : fallback_selection doc = doc := by
  simp only [fallback_selection, if_neg h]

theorem fallback_selection_of_few (doc : List Char)
    (h1 : 1 < (pySplit marker doc).length) (h6 : ¬ 6 < (pySplit marker doc).length) :
    fallback_selection doc =
      pyJoin "\n\n".data
        ((((pySplit marker doc).drop 1).take 5).map (fun s => marker ++ s)) := by
  simp only [fallback_selection, if_pos h1, if_neg h6]
  simp

theorem fallback_selection_of_many (doc : List Char)
    (h6 : 6 < (pySplit marker doc).length) :
    fallback_selection doc =
      pyJoin "\n\n".data
        ((((pySplit marker doc).drop 1).take 5).map (fun s => marker ++ s)
          ++ ["\nSUMMARY OF REMAINING SLIDES:\n".data
               ++ pyJoin "\n".data ((create_slide_summaries doc).drop 5)]) := by
  have h1 : 1 < (pySplit marker doc).length := by omega
  have hrem : (pySplit marker doc).drop 6 ≠ [] := by
    intro hcon
    have := List.drop_eq_nil_iff.mp hcon
    omega
  simp only [fallback_selection, if_pos h1, if_pos h6, hrem]
  simp [hrem]

theorem fallback_selection_ne_nil (doc : List Char) (hdoc : doc ≠ []) :
    fallback_selection doc ≠ [] := by
  by_cases h1 : 1 < (pySplit marker doc).length
  · have hd1 : (pySplit marker doc).drop 1 ≠ [] := by
      intro hcon
      have := List.drop_eq_nil_iff.mp hcon
      omega
    obtain ⟨x, xs, hxs⟩ := List.exists_cons_of_ne_nil hd1
    by_cases h6 : 6 < (pySplit marker doc).length
    · rw [fallback_selection_of_many doc h6, hxs]
      simp only [List.take_cons, List.map_cons, List.cons_append]
      exact pyJoin_ne_nil_of_head_ne_nil _ _ _ (by simp [marker])
    · rw [fallback_selection_of_few doc h1 h6, hxs]
      simp only [List.take_cons, List.map_cons]
      exact pyJoin_ne_nil_of_head_ne_nil _ _ _ (by simp [marker])
  · rw [fallback_selection_id doc h1]
    exact hdoc

/-! ## Concrete fixtures for witnesses and counterexamples

Large documents are built as a marker-free filler followed by a small
slide-structured text, so that the filler lands in the ignored chunk before
the first marker and all interesting computation stays small. -/

def filler : List Char := List.replicate 48000 'x'

def demo4 : List Char :=
  ("=== SLIDE 1 ===\nTITLE: Alpha\n\n=== SLIDE 2 ===\nTITLE: Beta\nCONTENT: hello world\n\n"
   ++ "=== SLIDE 3 ===\nTITLE: Gamma\n\n=== SLIDE 4 ===\nTABLE:\na | b").data

def c41 : List Char := " 1 ===\nTITLE: Alpha\n\n".data
def c42 : List Char := " 2 ===\nTITLE: Beta\nCONTENT: hello world\n\n".data
def c43 : List Char := " 3 ===\nTITLE: Gamma\n\n".data
def c44 : List Char := " 4 ===\nTABLE:\na | b".data

/-- A slide-structured document whose estimated token count exceeds 12000. -/
def bigDoc4 : List Char := filler ++ demo4

def demo7 : List Char :=
  ("=== SLIDE 1 ===\nTITLE: A1\n\n=== SLIDE 2 ===\nTITLE: A2\n\n=== SLIDE 3 ===\nTITLE: A3\n\n"
   ++ "=== SLIDE 4 ===\nTITLE: A4\n\n=== SLIDE 5 ===\nTITLE: A5\n\n=== SLIDE 6 ===\nTITLE: A6\n\n"
   ++ "=== SLIDE 7 ===\nTITLE: A7").data

/-- An over-budget document with seven slide blocks. -/
def bigDoc7 : List Char := filler ++ demo7

/-- An over-budget document with no slide marker at all. -/
def xdoc : List Char := List.replicate 48004 'x'

theorem pySplit_demo4 : pySplit marker demo4 = [[], c41, c42, c43, c44] := by decide

theorem pySplit_bigDoc4 : pySplit marker bigDoc4 = filler :: [c41, c42, c43, c44] := by
  have h := pySplit_filler 48000 demo4 [] [c41, c42, c43, c44] pySplit_demo4
  rw [List.append_nil] at h
  exact h

theorem demo4_length : demo4.length = 138 := by decide

theorem filler_length : filler.length = 48000 := List.length_replicate 48000 'x'

theorem bigDoc4_length : bigDoc4.length = 48138 := by
  show (filler ++ demo4).length = 48138
  rw [List.length_append, filler_length, demo4_length]

theorem estimate_tokens_eq (t : List Char) : estimate_tokens t = t.length / 4 := rfl

theorem estimate_bigDoc4 : 12000 < estimate_tokens bigDoc4 := by
  rw [estimate_tokens_eq, bigDoc4_length]
  norm_num

theorem bigDoc4_ne_nil : bigDoc4 ≠ [] := by
  intro h
  have hl := bigDoc4_length
  rw [h] at hl
  simp at hl

def c71 : List Char := " 1 ===\nTITLE: A1\n\n".data
def c72 : List Char := " 2 ===\nTITLE: A2\n\n".data
def c73 : List Char := " 3 ===\nTITLE: A3\n\n".data
def c74 : List Char := " 4 ===\nTITLE: A4\n\n".data
def c75 : List Char := " 5 ===\nTITLE: A5\n\n".data
def c76 : List Char := " 6 ===\nTITLE: A6\n\n".data
def c77 : List Char := " 7 ===\nTITLE: A7".data

theorem pySplit_demo7 :
    pySplit marker demo7 = [[], c71, c72, c73, c74, c75, c76, c77] := by decide

theorem pySplit_bigDoc7 :
    pySplit marker bigDoc7 = filler :: [c71, c72, c73, c74, c75, c76, c77] := by
  have h := pySplit_filler 48000 demo7 [] [c71, c72, c73, c74, c75, c76, c77] pySplit_demo7
  rw [List.append_nil] at h
  exact h

theorem demo7_length : demo7.length = 187 := by decide

theorem bigDoc7_length : bigDoc7.length = 48187 := by
  show (filler ++ demo7).length = 48187
  rw [List.length_append, filler_length, demo7_length]

theorem estimate_bigDoc7 : 12000 < estimate_tokens bigDoc7 := by
  rw [estimate_tokens_eq, bigDoc7_length]
  norm_num

theorem xdoc_length : xdoc.length = 48004 := List.length_replicate 48004 'x'

theorem estimate_xdoc : 12000 < estimate_tokens xdoc := by
  rw [estimate_tokens_eq, xdoc_length]
  norm_num

theorem xdoc_no_marker : containsSub marker xdoc = false := by
  refine containsSub_marker_false_of_no_eq _ ?_
  intro h
  have := (List.mem_replicate.mp h).2
  simp at this

/-! ## The claims -/

/-- C1: for every document and user query, if the estimated token count of
the document (its character length divided by 4) is at most 12000, the
Context Selector forwards the document unchanged as the chat context; the
reduced-selection logic (`get_relevant_slides`) is invoked exactly when the
estimate exceeds 12000. -/
theorem C1_full_context_under_budget (doc msg : List Char) :
    (estimate_tokens doc ≤ 12000 → select_context doc msg = doc) ∧
    (12000 < estimate_tokens doc →
      select_context doc msg = get_relevant_slides doc msg) :=
  ⟨fun h => select_context_under doc msg h, fun h => select_context_over doc msg h⟩

theorem C1_full_context_under_budget_witness :
    (estimate_tokens "a short document".data ≤ 12000 ∧
      select_context "a short document".data "hi".data = "a short document".data) ∧
    (12000 < estimate_tokens bigDoc4 ∧
      select_context bigDoc4 "hi".data = get_relevant_slides bigDoc4 "hi".data) :=
  ⟨⟨by decide,
    (C1_full_context_under_budget "a short document".data "hi".data).1 (by decide)⟩,
   ⟨estimate_bigDoc4,
    (C1_full_context_under_budget bigDoc4 "hi".data).2 estimate_bigDoc4⟩⟩

/-- C10: a document over the token threshold that contains no `"=== SLIDE"`
marker is returned unchanged by the Context Selector: reduced-context
truncation and summarization apply only to slide-structured documents. -/
theorem C10_markerless_unchanged (doc msg : List Char)
    (hover : 12000 < estimate_tokens doc)
    (hnomark : containsSub marker doc = false) :
    select_context doc msg = doc := by
  have hinf := (containsSub_false_iff _ _).mp hnomark
  have hsingle : pySplit marker doc = [doc] := pySplit_of_marker_free doc hinf
  rw [select_context_over doc msg hover]
  rw [get_relevant_slides_no_valid doc msg ?hval]
  · exact fallback_selection_id doc (by rw [hsingle]; simp)
  case hval =>
    intro k _
    rw [hsingle]
    rintro ⟨hk0, hk1⟩
    simp only [List.length_singleton] at hk1
    omega

theorem C10_markerless_unchanged_witness :
    12000 < estimate_tokens xdoc ∧ containsSub marker xdoc = false ∧
    select_context xdoc "summarize the whole file".data = xdoc :=
  ⟨estimate_xdoc, xdoc_no_marker,
   C10_markerless_unchanged xdoc "summarize the whole file".data estimate_xdoc xdoc_no_marker⟩

/-- C8: for a document over the threshold and a query whose matched slide
numbers are all outside the valid range `1 .. len(slides) - 1`, the Context
Selector silently skips every reference and falls through to the
no-reference behavior (the same result as for a query with no slide
reference), and it never returns an empty context for a non-empty
document. -/
theorem C8_out_of_range_fallback (doc msg : List Char)
    (hover : 12000 < estimate_tokens doc)
    (hinvalid : ∀ k ∈ findSlideRefs (pyLower msg),
      ¬(0 < k ∧ k < (pySplit marker doc).length)) :
    select_context doc msg = fallback_selection doc ∧
    (∀ msg2, findSlideRefs (pyLower msg2) = [] →
      select_context doc msg = select_context doc msg2) ∧
    (doc ≠ [] → select_context doc msg ≠ []) := by
  have h1 : select_context doc msg = fallback_selection doc := by
    rw [select_context_over _ _ hover, get_relevant_slides_no_valid _ _ hinvalid]
  refine ⟨h1, ?_, ?_⟩
  · intro msg2 h2
    rw [h1, select_context_over _ _ hover,
        get_relevant_slides_no_valid doc msg2 (by rw [h2]; intro k hk; simp at hk)]
  · intro hdoc
    rw [h1]
    exact fallback_selection_ne_nil doc hdoc

theorem C8_out_of_range_fallback_witness :
    12000 < estimate_tokens bigDoc4 ∧
    findSlideRefs (pyLower "What is on slide 9?".data) = [9] ∧
    (pySplit marker bigDoc4).length = 5 ∧
    select_context bigDoc4 "What is on slide 9?".data = fallback_selection bigDoc4 ∧
    select_context bigDoc4 "What is on slide 9?".data
      = select_context bigDoc4 "tell me everything".data ∧
    select_context bigDoc4 "What is on slide 9?".data ≠ [] := by
  have hlen : (pySplit marker bigDoc4).length = 5 := by
    rw [pySplit_bigDoc4]
    rfl
  have hinvalid : ∀ k ∈ findSlideRefs (pyLower "What is on slide 9?".data),
      ¬(0 < k ∧ k < (pySplit marker bigDoc4).length) := by
    intro k hk
    have hrefs : findSlideRefs (pyLower "What is on slide 9?".data) = [9] := by decide
    rw [hrefs] at hk
    simp only [List.mem_singleton] at hk
    subst hk
    rw [hlen]
    rintro ⟨-, hk1⟩
    omega
  have hmain := C8_out_of_range_fallback bigDoc4 "What is on slide 9?".data
    estimate_bigDoc4 hinvalid
  exact ⟨estimate_bigDoc4, by decide, hlen, hmain.1,
    hmain.2.1 "tell me everything".data (by decide), hmain.2.2 bigDoc4_ne_nil⟩

/-- C3: for a document over the threshold with at least one slide block and
a query with no valid slide reference, the Context Selector returns exactly
the first (at most five) slide blocks verbatim; when there are more than
five slide blocks it additionally appends the `"SUMMARY OF REMAINING
SLIDES:"` block holding one non-empty one-line summary per slide from the
sixth onward, and when there are five or fewer no summary block is
appended. -/
theorem C3_first_five_plus_summaries (doc msg : List Char)
    (hover : 12000 < estimate_tokens doc)
    (hinvalid : ∀ k ∈ findSlideRefs (pyLower msg),
      ¬(0 < k ∧ k < (pySplit marker doc).length))
    (hslides : 1 < (pySplit marker doc).length) :
    (¬ 6 < (pySplit marker doc).length →
      select_context doc msg =
        pyJoin "\n\n".data
          ((((pySplit marker doc).drop 1).take 5).map (fun s => marker ++ s))) ∧
    (6 < (pySplit marker doc).length →
      select_context doc msg =
        pyJoin "\n\n".data
          ((((pySplit marker doc).drop 1).take 5).map (fun s => marker ++ s)
            ++ ["\nSUMMARY OF REMAINING SLIDES:\n".data
                 ++ pyJoin "\n".data ((create_slide_summaries doc).drop 5)])
      ∧ (create_slide_summaries doc).drop 5 ≠ []
      ∧ (create_slide_summaries doc).length = (pySplit marker doc).length - 1
      ∧ ∀ x ∈ (create_slide_summaries doc).drop 5, x ≠ []) := by
  have hfall : select_context doc msg = fallback_selection doc := by
    rw [select_context_over _ _ hover, get_relevant_slides_no_valid _ _ hinvalid]
  constructor
  · intro h6
    rw [hfall, fallback_selection_of_few doc hslides h6]
  · intro h6
    refine ⟨by rw [hfall, fallback_selection_of_many doc h6], ?_, ?_, ?_⟩
    · intro hcon
      have := List.drop_eq_nil_iff.mp hcon
      rw [create_slide_summaries_length] at this
      omega
    · exact create_slide_summaries_length doc
    · intro x hx
      exact create_slide_summaries_ne_nil doc x (List.mem_of_mem_drop hx)

theorem C3_first_five_plus_summaries_witness :
    (12000 < estimate_tokens bigDoc4 ∧
      findSlideRefs (pyLower "tell me everything".data) = [] ∧
      (pySplit marker bigDoc4).length = 5 ∧
      select_context bigDoc4 "tell me everything".data =
        pyJoin "\n\n".data
          ((((pySplit marker bigDoc4).drop 1).take 5).map (fun s => marker ++ s))) ∧
    (12000 < estimate_tokens bigDoc7 ∧
      findSlideRefs (pyLower "tell me everything".data) = [] ∧
      (pySplit marker bigDoc7).length = 8 ∧
      select_context bigDoc7 "tell me everything".data =
        pyJoin "\n\n".data
          ((((pySplit marker bigDoc7).drop 1).take 5).map (fun s => marker ++ s)
            ++ ["\nSUMMARY OF REMAINING SLIDES:\n".data
                 ++ pyJoin "\n".data ((create_slide_summaries bigDoc7).drop 5)]) ∧
      (create_slide_summaries bigDoc7).drop 5 ≠ []) := by
  have hlen4 : (pySplit marker bigDoc4).length = 5 := by rw [pySplit_bigDoc4]; rfl
  have hlen7 : (pySplit marker bigDoc7).length = 8 := by rw [pySplit_bigDoc7]; rfl
  have hrefs : findSlideRefs (pyLower "tell me everything".data) = [] := by decide
  have hinv4 : ∀ k ∈ findSlideRefs (pyLower "tell me everything".data),
      ¬(0 < k ∧ k < (pySplit marker bigDoc4).length) := by
    rw [hrefs]
    intro k hk
    simp at hk
  have hinv7 : ∀ k ∈ findSlideRefs (pyLower "tell me everything".data),
      ¬(0 < k ∧ k < (pySplit marker bigDoc7).length) := by
    rw [hrefs]
    intro k hk
    simp at hk
  have h4 := C3_first_five_plus_summaries bigDoc4 "tell me everything".data
    estimate_bigDoc4 hinv4 (by rw [hlen4]; omega)
  have h7 := C3_first_five_plus_summaries bigDoc7 "tell me everything".data
    estimate_bigDoc7 hinv7 (by rw [hlen7]; omega)
  have h7' := h7.2 (by rw [hlen7]; omega)
  exact ⟨⟨estimate_bigDoc4, hrefs, hlen4, h4.1 (by rw [hlen4]; omega)⟩,
    ⟨estimate_bigDoc7, hrefs, hlen7, h7'.1, h7'.2.1⟩⟩

def c2cmsg : List Char := "compare slide 2 and slide 3".data

/-- C2 as stated is false: a query that contains the phrase `"slide 3"` may
contain further slide references, in which case the returned context also
contains other slides' blocks verbatim.  At `bigDoc4` and the query
`"compare slide 2 and slide 3"`, slide 3 is a valid index, yet the result
also contains slide 2's block verbatim and is not equal to slide 3's
block. -/
theorem C2_counterexample_multi_ref :
    12000 < estimate_tokens bigDoc4 ∧
    containsSub "slide 3".data (pyLower c2cmsg) = true ∧
    3 < (pySplit marker bigDoc4).length ∧
    containsSub (marker ++ c42) (select_context bigDoc4 c2cmsg) = true ∧
    marker ++ c42 ≠ marker ++ c43 ∧
    select_context bigDoc4 c2cmsg ≠ marker ++ c43 := by
  have hrefs : findSlideRefs (pyLower c2cmsg) = [2, 3] := by decide
  have hsel : select_context bigDoc4 c2cmsg
      = (marker ++ c42) ++ "\n\n".data ++ (marker ++ c43) := by
    rw [select_context_over _ _ estimate_bigDoc4]
    simp only [get_relevant_slides, hrefs, pySplit_bigDoc4]
    simp only [List.filterMap_cons, List.filterMap_nil]
    norm_num
    rfl
  refine ⟨estimate_bigDoc4, by decide, by rw [pySplit_bigDoc4]; decide, ?_, by decide, ?_⟩
  · rw [hsel]
    refine (containsSub_eq_true_iff _ _).mpr ⟨[], "\n\n".data ++ (marker ++ c43), ?_⟩
    simp [List.append_assoc]
  · rw [hsel]
    decide

def c2wmsg : List Char := "What is on slide 3?".data

/-- C2 (amended): for a document over the threshold and a query whose only
matched slide reference is slide 3, with 3 a valid 1-based index into the
slide chunks, the Context Selector returns exactly slide 3's full block
(re-prefixed with the marker), and any other slide's block that occurs in
the result verbatim can only do so by being a prefix of slide 3's block. -/
theorem C2_exact_slide_three (doc msg : List Char)
    (hover : 12000 < estimate_tokens doc)
    (href : findSlideRefs (pyLower msg) = [3])
    (hlt : 3 < (pySplit marker doc).length) :
    select_context doc msg = marker ++ (pySplit marker doc).getD 3 [] ∧
    (∀ i, i < (pySplit marker doc).length → 1 ≤ i → i ≠ 3 →
      containsSub (marker ++ (pySplit marker doc).getD i [])
        (select_context doc msg) = true →
      (pySplit marker doc).getD i [] <+: (pySplit marker doc).getD 3 []) := by
  have h1 : select_context doc msg = marker ++ (pySplit marker doc).getD 3 [] := by
    rw [select_context_over _ _ hover]
    exact get_relevant_slides_single doc msg 3 href (by omega) hlt
  refine ⟨h1, ?_⟩
  intro i _ _ _ hcont
  rw [h1] at hcont
  have hinf := (containsSub_eq_true_iff _ _).mp hcont
  have hfree3 : ¬ marker <:+: (pySplit marker doc).getD 3 [] := by
    apply pySplit_chunk_marker_free marker (by decide) doc
    rw [List.getD_eq_getElem _ _ hlt]
    exact List.getElem_mem hlt
  exact block_infix_prefix _ _ hfree3 hinf

theorem C2_exact_slide_three_witness :
    12000 < estimate_tokens bigDoc4 ∧
    findSlideRefs (pyLower c2wmsg) = [3] ∧
    3 < (pySplit marker bigDoc4).length ∧
    select_context bigDoc4 c2wmsg = marker ++ (pySplit marker bigDoc4).getD 3 [] := by
  have hrefs : findSlideRefs (pyLower c2wmsg) = [3] := by decide
  have hlt : 3 < (pySplit marker bigDoc4).length := by rw [pySplit_bigDoc4]; decide
  exact ⟨estimate_bigDoc4, hrefs, hlt,
    (C2_exact_slide_three bigDoc4 c2wmsg estimate_bigDoc4 hrefs hlt).1⟩

/-- C9: in reduced mode the Context Selector resolves `"slide N"` by
position among the `"=== SLIDE"` occurrences of the extracted document, not
by the number printed in a block's header: the returned block is the `N`-th
block in document order (up to the retained `"\n\n"` separator), that block
carries the header of the `N`-th *contributing* slide of the deck, the
header number equals `N` exactly when each of the first `N` blocks comes
from the slide with the same ordinal (i.e. all of the first `N` slides
contributed content), and the one-line summaries are numbered by the same
positional rule.  The hypothesis `hfree` excludes slide texts that
themselves contain the `"=== SLIDE"` marker (for which the split cannot
respect block boundaries). -/
theorem C9_positional_resolution (dslides : List Slide) (msg : List Char) (N : Nat)
    (hblocks : extractAll 1 dslides ≠ [])
    (hfree : ∀ b ∈ extractAll 1 dslides, containsSub marker (b.drop 9) = false)
    (href : findSlideRefs (pyLower msg) = [N])
    (h0 : 0 < N) (hN : N ≤ (extractAll 1 dslides).length) :
    get_relevant_slides (process_pptx_file dslides) msg =
      (extractAll 1 dslides).getD (N - 1) []
        ++ (if N = (extractAll 1 dslides).length then [] else "\n\n".data) ∧
    ("=== SLIDE ".data ++ natRepr ((contributors 1 dslides).getD (N - 1) 0)
        ++ " ===\n".data)
      <+: (extractAll 1 dslides).getD (N - 1) [] ∧
    ((contributors 1 dslides).getD (N - 1) 0 = N ↔
      ∀ j, j ≤ N - 1 → (contributors 1 dslides).getD j 0 = j + 1) ∧
    (∀ i, i < (create_slide_summaries (process_pptx_file dslides)).length →
      ("Slide ".data ++ natRepr (i + 1))
        <+: (create_slide_summaries (process_pptx_file dslides)).getD i []) := by
  have hproc : process_pptx_file dslides
      = metaBlock dslides.length (extractAll 1 dslides).length
        ++ pyJoin "\n\n".data (extractAll 1 dslides) := by
    simp only [process_pptx_file]
    rw [if_neg hblocks]
  have hmem_header : ∀ b ∈ extractAll 1 dslides, marker <+: b := by
    intro b hb
    obtain ⟨m, hm, rfl⟩ := List.mem_iff_getElem.mp hb
    have := extractAll_getD_header dslides 1 m hm
    rw [List.getD_eq_getElem _ _ hm] at this
    exact marker_prefix_of_header_prefix _ _ this
  have hmap : (extractAll 1 dslides).map (fun b => marker ++ b.drop 9)
      = extractAll 1 dslides := by
    have : ∀ b ∈ extractAll 1 dslides, marker ++ b.drop 9 = b := by
      intro b hb
      exact (eq_marker_append_drop b (hmem_header b hb)).symm
    calc (extractAll 1 dslides).map (fun b => marker ++ b.drop 9)
        = (extractAll 1 dslides).map id := List.map_congr_left this
      _ = extractAll 1 dslides := List.map_id _
  have htails_ne : (extractAll 1 dslides).map (fun b => b.drop 9) ≠ [] := by
    intro hcon
    exact hblocks (List.map_eq_nil_iff.mp hcon)
  have htails_free : ∀ t ∈ (extractAll 1 dslides).map (fun b => b.drop 9),
      ¬ marker <:+: t := by
    intro t ht
    obtain ⟨b, hb, rfl⟩ := List.mem_map.mp ht
    exact (containsSub_false_iff _ _).mp (hfree b hb)
  have hsplit : pySplit marker (process_pptx_file dslides)
      = metaBlock dslides.length (extractAll 1 dslides).length
        :: chunksOf ((extractAll 1 dslides).map (fun b => b.drop 9)) := by
    rw [hproc]
    have hglue := pySplit_meta_glue
      (metaBlock dslides.length (extractAll 1 dslides).length)
      ((extractAll 1 dslides).map (fun b => b.drop 9))
      (metaBlock_no_eq _ _) htails_ne htails_free
    rw [List.map_map] at hglue
    have hcomp : ((fun t => marker ++ t) ∘ (fun (b : List Char) => b.drop 9))
        = (fun (b : List Char) => marker ++ b.drop 9) := rfl
    rw [hcomp, hmap] at hglue
    exact hglue
  have hsplitlen : (pySplit marker (process_pptx_file dslides)).length
      = 1 + (extractAll 1 dslides).length := by
    rw [hsplit]
    simp only [List.length_cons, chunksOf_length, List.length_map]
    omega
  have hblen : 0 < (extractAll 1 dslides).length := by
    cases hB : extractAll 1 dslides with
    | nil => exact absurd hB hblocks
    | cons x xs => simp
  have hm1 : N - 1 < (extractAll 1 dslides).length := by omega
  have hclen : N - 1 < (contributors 1 dslides).length := by
    rw [← extractAll_length_eq]
    exact hm1
  refine ⟨?_, ?_, ?_, ?_⟩
  · -- the selected block
    rw [get_relevant_slides_single _ _ N href h0 (by omega)]
    rw [hsplit]
    have hNsucc : N = (N - 1) + 1 := by omega
    rw [hNsucc, List.getD_cons_succ]
    rw [chunksOf_getD _ (N - 1) (by simpa using hm1)]
    rw [getD_map_of_lt _ _ _ hm1]
    rw [← List.append_assoc]
    rw [← eq_marker_append_drop _ (hmem_header _ (by
      rw [List.getD_eq_getElem _ _ hm1]
      exact List.getElem_mem hm1))]
    congr 1
    have hiff : (N - 1 = ((extractAll 1 dslides).map (fun b => b.drop 9)).length - 1)
        ↔ ((N - 1) + 1 = (extractAll 1 dslides).length) := by
      simp only [List.length_map]
      omega
    by_cases hc : N - 1 = ((extractAll 1 dslides).map (fun b => b.drop 9)).length - 1
    · rw [if_pos hc, if_pos (hiff.mp hc)]
    · rw [if_neg hc, if_neg (fun hcc => hc (hiff.mpr hcc))]
  · exact extractAll_getD_header dslides 1 (N - 1) hm1
  · have h := contributors_eq_iff dslides 1 (N - 1) hclen
    have harith : 1 + (N - 1) = N := by omega
    rw [harith] at h
    rw [h]
    constructor
    · intro hAll j hj
      have := hAll j hj
      omega
    · intro hAll j hj
      have := hAll j hj
      omega
  · intro i hi
    have hdrop : (pySplit marker (process_pptx_file dslides)).drop 1
        = chunksOf ((extractAll 1 dslides).map (fun b => b.drop 9)) := by
      rw [hsplit]
      rfl
    have hi' : i < ((pySplit marker (process_pptx_file dslides)).drop 1).length := by
      have := create_slide_summaries_length (process_pptx_file dslides)
      simp only [List.length_drop]
      omega
    have hpre := summariesAux_getD_prefix
      ((pySplit marker (process_pptx_file dslides)).drop 1) 1 i hi'
    have harith : 1 + i = i + 1 := by omega
    rw [harith] at hpre
    exact hpre

/-- A text box holding the single word `"Alpha"`, as `python-pptx` exposes
it: direct `.text`, one paragraph with one run, aggregate frame text. -/
def alphaShape : Shape :=
  .mk (some "Alpha".data)
      (some ⟨[⟨"Alpha".data, 0, [⟨"Alpha".data⟩]⟩], "Alpha".data⟩) true none []
      none none none (some "TextBox 1".data) "Shape".data (some "TEXT_BOX (17)".data)

def gammaShape : Shape :=
  .mk (some "Gamma".data)
      (some ⟨[⟨"Gamma".data, 0, [⟨"Gamma".data⟩]⟩], "Gamma".data⟩) true none []
      none none none (some "TextBox 2".data) "Shape".data (some "TEXT_BOX (17)".data)

/-- A deck whose second slide has no shapes at all: its block is omitted, so
the second block of the document comes from slide 3. -/
def c9deck : List Slide := [⟨[alphaShape], none⟩, ⟨[], none⟩, ⟨[gammaShape], none⟩]

def c9msg : List Char := "What about slide 2?".data

theorem C9_positional_resolution_witness :
    extractAll 1 c9deck ≠ [] ∧
    (∀ b ∈ extractAll 1 c9deck, containsSub marker (b.drop 9) = false) ∧
    findSlideRefs (pyLower c9msg) = [2] ∧
    (extractAll 1 c9deck).length = 2 ∧
    get_relevant_slides (process_pptx_file c9deck) c9msg
      = (extractAll 1 c9deck).getD 1 []
        ++ (if 2 = (extractAll 1 c9deck).length then [] else "\n\n".data) ∧
    (contributors 1 c9deck).getD 1 0 = 3 := by
  have hmain := C9_positional_resolution c9deck c9msg 2
    (by decide) (by decide) (by decide) (by decide) (by decide)
  exact ⟨by decide, by decide, by decide, by decide, hmain.1, by decide⟩

/-- A shape yielding no text under any extraction strategy (e.g. a
picture). -/
def pictureShape : Shape :=
  .mk none none false none [] none none none (some "Picture 5".data)
      "Picture".data (some "PICTURE (13)".data)

/-- A text box holding `"Hello"`, modelled after `python-pptx`'s `Shape`
for a text box: direct `.text`, a text frame with one paragraph and one
run, `has_text_frame` true, and the `text` fallback attribute (the same
`.text` property read again by the attribute loop). -/
def helloShape : Shape :=
  .mk (some "Hello".data)
      (some ⟨[⟨"Hello".data, 0, [⟨"Hello".data⟩]⟩], "Hello".data⟩) true none []
      none none none (some "TextBox 1".data) "Shape".data (some "TEXT_BOX (17)".data)

def helloSlide : Slide := ⟨[helloShape], none⟩

def emptyShapeSlide : Slide := ⟨[pictureShape], none⟩

def c4deck : List Slide := [helloSlide, emptyShapeSlide]

/-- C4 as stated is false: a slide whose shapes yield no extracted text is
NOT omitted from the body — each textless shape contributes a DEBUG
placeholder line, so the slide appears in the body and is counted in
`"Content Extracted"`.  Concretely, slide 2 of `c4deck` has one shape with
no text, yet the output contains its block and reports
`"Content Extracted: 2 slides"` instead of 1. -/
theorem C4_counterexample_debug_slide :
    extract_text_from_shape pictureShape = [] ∧
    extract_slide_content emptyShapeSlide 2 ≠ none ∧
    containsSub "=== SLIDE 2 ===".data (process_pptx_file c4deck) = true ∧
    containsSub "No text extracted".data (process_pptx_file c4deck) = true ∧
    containsSub "Content Extracted: 2 slides".data (process_pptx_file c4deck) = true ∧
    containsSub "Content Extracted: 1 slides".data (process_pptx_file c4deck) = false := by
  decide

theorem extractAll_length_countP : ∀ (l : List Slide) (k : Nat),
    (extractAll k l).length
      = l.countP (fun sl => !(sl.shapes.isEmpty && notes_blank sl))
  | [], _ => rfl
  | sl :: rest, k => by
    by_cases hsl : extract_slide_content sl k = none
    · rw [extractAll_cons_none rest hsl]
      have hpred : (sl.shapes.isEmpty && notes_blank sl) = true := by
        have h := (extract_slide_content_eq_none_iff sl k).mp hsl
        simp [List.isEmpty_iff, h.1, h.2]
      have hp0 : (!(sl.shapes.isEmpty && notes_blank sl)) = false := by
        rw [hpred]
        rfl
      rw [List.countP_cons, hp0]
      simp only [Bool.false_eq_true, if_false, Nat.add_zero]
      exact extractAll_length_countP rest (k + 1)
    · obtain ⟨b, hb⟩ := Option.ne_none_iff_exists'.mp hsl
      rw [extractAll_cons_some rest hb]
      have hpred : (sl.shapes.isEmpty && notes_blank sl) = false := by
        rw [Bool.eq_false_iff]
        intro hcon
        apply hsl
        apply (extract_slide_content_eq_none_iff sl k).mpr
        simp only [Bool.and_eq_true, List.isEmpty_iff] at hcon
        exact ⟨hcon.1, hcon.2⟩
      rw [List.countP_cons]
      simp only [hpred, Bool.not_false, if_pos, List.length_cons]
      rw [extractAll_length_countP rest (k + 1)]

/-- C4 (amended): a slide is omitted from the body exactly when it has no
shapes and no non-blank notes (a slide whose shapes all yield no text still
appears, with DEBUG placeholder lines, and is counted); every slide is
counted in the header's `"Total Slides"` (`slides.length`), and the
`"Content Extracted"` count equals the number of slides with at least one
shape or non-blank notes. -/
theorem C4_omission_and_counts (slides : List Slide) :
    (∀ sl i, extract_slide_content sl i = none ↔
      sl.shapes = [] ∧ notes_blank sl = true) ∧
    (extractAll 1 slides).length
      = slides.countP (fun sl => !(sl.shapes.isEmpty && notes_blank sl)) ∧
    (extractAll 1 slides ≠ [] →
      process_pptx_file slides =
        metaBlock slides.length
          (slides.countP (fun sl => !(sl.shapes.isEmpty && notes_blank sl)))
          ++ pyJoin "\n\n".data (extractAll 1 slides)) := by
  refine ⟨fun sl i => extract_slide_content_eq_none_iff sl i,
    extractAll_length_countP slides 1, ?_⟩
  intro h
  simp only [process_pptx_file]
  rw [if_neg h, extractAll_length_countP slides 1]

theorem C4_omission_and_counts_witness :
    extract_slide_content (⟨[], none⟩ : Slide) 7 = none ∧
    extractAll 1 c4deck ≠ [] ∧
    process_pptx_file c4deck =
      metaBlock c4deck.length
        (c4deck.countP (fun sl => !(sl.shapes.isEmpty && notes_blank sl)))
        ++ pyJoin "\n\n".data (extractAll 1 c4deck) := by
  have T := C4_omission_and_counts c4deck
  refine ⟨?_, by decide, T.2.2 (by decide)⟩
  exact (C4_omission_and_counts [] ).1 ⟨[], none⟩ 7 |>.mpr ⟨rfl, rfl⟩

/-- C5 as stated is false: the shape-level extractor does not de-duplicate
across strategies.  For a text box holding `"Hello"`, the fragment
`"Hello"` is produced by four strategies (direct text, text frame,
`has_text_frame` re-read, fallback `text` attribute) and appears four times
in the concatenated result. -/
theorem C5_counterexample_no_shape_dedup :
    (shape_fragments helloShape).count "Hello".data = 4 ∧
    extract_text_from_shape helloShape = "Hello Hello Hello Hello".data ∧
    ¬ (shape_fragments helloShape).Nodup := by
  decide

/-- `acc` extends `P` by pairwise-distinct entries none of which occur in
`P`: the invariant maintained by the membership-checked appends of
`extract_text_frame_content`. -/
def dedupExtends (P acc : List (List Char)) : Prop :=
  ∃ e, acc = P ++ e ∧ e.Nodup ∧ ∀ x ∈ e, x ∉ P

theorem dedupExtends_refl (P : List (List Char)) : dedupExtends P P :=
  ⟨[], by simp, List.nodup_nil, by simp⟩

theorem addIfNew_pres (P acc : List (List Char)) (t : List Char)
    (h : dedupExtends P acc) : dedupExtends P (addIfNew acc t) := by
  obtain ⟨e, rfl, hnd, hdisj⟩ := h
  unfold addIfNew
  by_cases hc : t ≠ [] ∧ t ∉ P ++ e
  · rw [if_pos hc]
    refine ⟨e ++ [t], by rw [List.append_assoc], ?_, ?_⟩
    · rw [List.nodup_append]
      refine ⟨hnd, List.nodup_singleton t, ?_⟩
      intro x hx hxt
      simp only [List.mem_singleton] at hxt
      subst hxt
      exact hc.2 (List.mem_append.mpr (Or.inr hx))
    · intro x hx
      rcases List.mem_append.mp hx with hx | hx
      · exact hdisj x hx
      · simp only [List.mem_singleton] at hx
        subst hx
        intro hxP
        exact hc.2 (List.mem_append.mpr (Or.inl hxP))
  · rw [if_neg hc]
    exact ⟨e, rfl, hnd, hdisj⟩

theorem foldl_addIfNew_pres {α : Type} (P : List (List Char)) (f : α → List Char) :
    ∀ (l : List α) (acc : List (List Char)), dedupExtends P acc →
      dedupExtends P (l.foldl (fun a r => addIfNew a (f r)) acc)
  | [], _, h => h
  | x :: xs, acc, h =>
    foldl_addIfNew_pres P f xs (addIfNew acc (f x)) (addIfNew_pres P acc (f x) h)

theorem runPass_pres (P : List (List Char)) (tf : TextFrame)
    (acc : List (List Char)) (h : dedupExtends P acc) :
    dedupExtends P (runPass tf acc) := by
  unfold runPass
  suffices H : ∀ (ps : List TPara) (acc : List (List Char)), dedupExtends P acc →
      dedupExtends P (ps.foldl
        (fun a p => p.runs.foldl (fun a r => addIfNew a (pyStrip r.text)) a) acc) from
    H tf.paragraphs acc h
  intro ps
  induction ps with
  | nil => intro acc h; exact h
  | cons p ps ih =>
    intro acc h
    simp only [List.foldl_cons]
    exact ih _ (foldl_addIfNew_pres P (fun r => pyStrip r.text) p.runs acc h)

theorem fullTextPass_pres (P : List (List Char)) (tf : TextFrame)
    (acc : List (List Char)) (h : dedupExtends P acc) :
    dedupExtends P (fullTextPass tf acc) := by
  unfold fullTextPass
  by_cases hc : tf.text ≠ []
  · rw [if_pos hc]
    exact addIfNew_pres P acc (pyStrip tf.text) h
  · rw [if_neg hc]
    exact h

/-- C5 (amended): de-duplication happens only inside the text-frame
strategy: the run pass and the full-text pass of
`extract_text_frame_content` only append fragments that are not already
present verbatim, so everything they add beyond the paragraph lines is
pairwise distinct and absent from the paragraph lines; the shape-level
concatenation performs no de-duplication across strategies (see the
counterexample). -/
theorem C5_frame_level_dedup (tf : TextFrame) :
    ∃ extra, extract_text_frame_content tf = pyJoin "\n".data (paraPass tf ++ extra)
      ∧ fullTextPass tf (runPass tf (paraPass tf)) = paraPass tf ++ extra
      ∧ extra.Nodup ∧ ∀ x ∈ extra, x ∉ paraPass tf := by
  have h := fullTextPass_pres (paraPass tf) tf _
    (runPass_pres (paraPass tf) tf _ (dedupExtends_refl _))
  obtain ⟨e, he, hnd, hdisj⟩ := h
  refine ⟨e, ?_, he, hnd, hdisj⟩
  unfold extract_text_frame_content
  rw [he]

/-- C6 as stated is false: extracting a deck with one slide containing a
text box `"Hello"` does not embed `"=== SLIDE 1 ===\nHello"` — the shape is
classified as `TEXT` and the multi-strategy extraction repeats the
fragment, so the block reads `"=== SLIDE 1 ===\nTEXT: Hello Hello Hello
Hello"`.  The slide-count metadata does equal 1. -/
theorem C6_counterexample_round_trip :
    containsSub "=== SLIDE 1 ===\nHello".data (process_pptx_file [helloSlide]) = false ∧
    containsSub "Total Slides: 1".data (process_pptx_file [helloSlide]) = true := by
  decide

/-- C6 (amended): extracting a deck with one slide containing a text box
`"Hello"` produces exactly the metadata block followed by
`"=== SLIDE 1 ===\nTEXT: Hello Hello Hello Hello"` (so the block
`"=== SLIDE 1 ===\nTEXT: Hello"` is embedded in the output), and the slide
count metadata equals 1. -/
theorem C6_round_trip_actual :
    process_pptx_file [helloSlide] =
      ("PRESENTATION OVERVIEW:\nTotal Slides: 1\nContent Extracted: 1 slides\n\n"
        ++ "=== SLIDE 1 ===\nTEXT: Hello Hello Hello Hello").data ∧
    containsSub "=== SLIDE 1 ===\nTEXT: Hello".data (process_pptx_file [helloSlide]) = true ∧
    (extractAll 1 [helloSlide]).length = 1 := by
  decide

/-- C7: when the remote chat-completion call fails with any failure
description, the Chat Orchestrator returns a string beginning with
`"Error: "` followed by that description instead of raising, and the
previously recorded transcript entries are left unmodified by the chat
turn (they remain the unchanged prefix of the new transcript). -/
theorem C7_error_string_and_transcript
    (remote : List Char → List Char → Except (List Char) (List Char))
    (msg doc e : List Char) (transcript : List ChatMessage)
    (h : remote (build_system_prompt msg doc) msg = Except.error e) :
    chat_with_ai remote msg doc = "Error: ".data ++ e ∧
    "Error: ".data <+: chat_with_ai remote msg doc ∧
    (handle_chat_turn remote transcript msg doc).take transcript.length
      = transcript := by
  have h1 : chat_with_ai remote msg doc = "Error: ".data ++ e := by
    unfold chat_with_ai
    rw [h]
  refine ⟨h1, by rw [h1]; exact List.prefix_append _ _, ?_⟩
  unfold handle_chat_turn
  simp only [List.append_assoc]
  exact List.take_left _ _

def c7remote : List Char → List Char → Except (List Char) (List Char) :=
  fun _ _ => Except.error "Incorrect API key provided".data

def c7transcript : List ChatMessage :=
  [⟨"user".data, "hi".data⟩, ⟨"assistant".data, "hello there".data⟩]

theorem C7_error_string_and_transcript_witness :
    c7remote (build_system_prompt "what is this?".data "some doc".data)
        "what is this?".data
      = Except.error "Incorrect API key provided".data ∧
    chat_with_ai c7remote "what is this?".data "some doc".data
      = "Error: Incorrect API key provided".data ∧
    "Error: ".data <+: chat_with_ai c7remote "what is this?".data "some doc".data ∧
    (handle_chat_turn c7remote c7transcript "what is this?".data "some doc".data).take 2
      = c7transcript := by
  have h : c7remote (build_system_prompt "what is this?".data "some doc".data)
      "what is this?".data = Except.error "Incorrect API key provided".data := rfl
  have T := C7_error_string_and_transcript c7remote "what is this?".data
    "some doc".data "Incorrect API key provided".data c7transcript h
  refine ⟨h, ?_, T.2.1, T.2.2⟩
  rw [T.1]
  rfl

end DocChat
